import Mathlib

/-!
Verification of the fn-stats-cli-jnc snapshot-differencing and key-classification
engine.  JavaScript objects are embedded as association lists (`List (String × _)`),
JavaScript's `String.prototype.includes` as an executable substring test, and the
numeric semantics of stat counters as `Int`.  Each definition is a direct
transliteration of one source function; the theorems at the end of the file settle
the specification claims.
-/

namespace FnStats

/-- JavaScript `String.prototype.includes` on character lists:
`true` iff `pat` occurs as a contiguous substring. -/
def inclAux (pat : List Char) : List Char → Bool
  | [] => pat.isEmpty
  | c :: rest => pat.isPrefixOf (c :: rest) || inclAux pat rest

/-- JavaScript `key.includes(pat)`. -/
def jsIncludes (s pat : String) : Bool :=
  inclAux pat.toList s.toList

/-- Modelled from the spec: the module `fortniteModeConstants.js` is imported by
the sources but is not itself among them.  Its vocabularies are given by §4.1 of
the specification and by the duplicated copies in `playerStats.js`
(`teamSizes = ['solo','duo','trio','squad']` …).  Build modes, first checked
vocabulary of the taxonomy. -/
def buildModes : List String := ["zeroBuild", "build"]

/-- Modelled from the spec: game-mode vocabulary of `fortniteModeConstants.js`
(duplicated in `playerStats.js`). -/
def gameModes : List String := ["regular", "reload"]

/-- Modelled from the spec: competitive-mode vocabulary of
`fortniteModeConstants.js` (duplicated in `playerStats.js`). -/
def compModes : List String := ["pubs", "ranked", "bots"]

/-- Modelled from the spec: team-size vocabulary of `fortniteModeConstants.js`,
in the fixed checking order solo, duo, trio, squad (duplicated in
`playerStats.js`). -/
def teamSizes : List String := ["solo", "duo", "trio", "squad"]

/-- Modelled from the spec: the `statPattern` table of `fortniteModeConstants.js`
(stat-kind name ↦ marker substring).  The spec's design notes fix the corrected
pattern spelling (no embedded underscore split, i.e. `br_placetop12_`); the
CLI help text lists exactly these ten stat kinds. -/
def statPattern : List (String × String) :=
  [("matches", "br_matchesplayed"),
   ("kills", "br_kills"),
   ("wins", "br_placetop1_"),
   ("top3", "br_placetop3_"),
   ("top5", "br_placetop5_"),
   ("top6", "br_placetop6_"),
   ("top10", "br_placetop10_"),
   ("top12", "br_placetop12_"),
   ("top25", "br_placetop25_"),
   ("minutes", "br_minutesplayed")]

/-- A raw stat map (`rawStats.stats` in the sources): a JavaScript object mapping
opaque stat keys to numbers, embedded as an association list with distinct keys. -/
abbrev RawStats := List (String × Int)

/-- Keys of the merged object `{...largerWindow.stats, ...smallerWindow.stats}`:
the larger window's keys in order, then the smaller window's keys not already
present. -/
def unionKeys (larger smaller : RawStats) : List String :=
  larger.map Prod.fst ++
    (smaller.map Prod.fst).filter (fun k => !(larger.map Prod.fst).contains k)

/-- `subtractRawFortniteStats` from `fortniteRawStatOps.js`: for every key of
either window, the larger window's value minus the smaller window's value,
except that a `lastmodified` key keeps the larger window's value (`|| 0`
defaults a missing value to 0). -/
def subtractRawFortniteStats (larger smaller : RawStats) : RawStats :=
  (unionKeys larger smaller).map (fun key =>
    let largerWindowValue := larger.lookup key
    let smallerWindowValue := smaller.lookup key
    if jsIncludes key "lastmodified" then
      (key, largerWindowValue.getD 0)
    else
      (key, largerWindowValue.getD 0 - smallerWindowValue.getD 0))

/-- Looking a key up in a list built by tabulating a function over a key list
yields the tabulated value exactly when the key occurs. -/
theorem lookup_map_fn {β : Type} (f : String → β) (ks : List String) (k : String) :
    (ks.map (fun key => (key, f key))).lookup k =
      if k ∈ ks then some (f k) else none := by
  induction ks with
  | nil => simp
  | cons a rest ih =>
    by_cases hk : k = a
    · subst hk; simp [List.lookup]
    · simp only [List.map_cons, List.lookup, List.mem_cons]
      have : (k == a) = false := by simp [hk]
      simp [this, ih, hk]

theorem mem_unionKeys (larger smaller : RawStats) (k : String) :
    k ∈ unionKeys larger smaller ↔
      k ∈ larger.map Prod.fst ∨ k ∈ smaller.map Prod.fst := by
  unfold unionKeys
  simp only [List.mem_append, List.mem_filter]
  constructor
  · rintro (h | ⟨h, _⟩)
    · exact Or.inl h
    · exact Or.inr h
  · rintro (h | h)
    · exact Or.inl h
    · by_cases hL : k ∈ larger.map Prod.fst
      · exact Or.inl hL
      · refine Or.inr ⟨h, ?_⟩
        simp [List.contains, hL]

/-- Modelled from the spec: input-device vocabulary of
`fortniteModeConstants.js` (§4.1: "gamepad" or "keyboardmouse"). -/
def inputTypes : List String := ["gamepad", "keyboardmouse"]

/-- Build-mode classification inside `filterRawFortniteStats`
(`fortniteRawStatOps.js`): `'zeroBuild'` iff the key contains `nobuild`. -/
def rawBuildMode (key : String) : String :=
  if jsIncludes key "nobuild" then "zeroBuild" else "build"

/-- Game-mode classification inside `filterRawFortniteStats`
(`fortniteRawStatOps.js`): regular-BR markers first, then the reload
playlist markers, else `'unknown'`. -/
def rawGameMode (key : String) : String :=
  if jsIncludes key "nobuildbr" || jsIncludes key "default" then "regular"
  else if jsIncludes key "punchberry" || jsIncludes key "sunflower" ||
      jsIncludes key "blastberry" then "reload"
  else "unknown"

/-- Competitive-mode classification inside `filterRawFortniteStats`
(`fortniteRawStatOps.js`): `habanero` ⇒ ranked, else `bots` ⇒ bots,
else pubs. -/
def rawCompMode (key : String) : String :=
  if jsIncludes key "habanero" then "ranked"
  else if jsIncludes key "bots" then "bots"
  else "pubs"

/-- The `for (const size of teamSizes) { if (key.includes(size)) { … break } }`
loop of `filterRawFortniteStats`. -/
def firstTeamSize (key : String) : List String → String
  | [] => "uknown"
  | size :: rest => if jsIncludes key size then size else firstTeamSize key rest

/-- Team-size classification inside `filterRawFortniteStats`
(`fortniteRawStatOps.js`): the loop starts from the literal initial value
`'uknown'` (sic, as written in the source) and takes the first matching marker. -/
def rawTeamSize (key : String) : String :=
  firstTeamSize key teamSizes

/-- Input-type classification inside `filterRawFortniteStats`
(`fortniteRawStatOps.js`). -/
def rawInputType (key : String) : String :=
  if jsIncludes key "gamepad" then "gamepad"
  else if jsIncludes key "keyboardmouse" then "keyboardmouse"
  else "unknown"

/-- The early-return filter chain of `filterRawFortniteStats`: a key is kept iff
none of the five category filters rejects it; with no competitive filters the
bots competitive mode is excluded by default. -/
def rawKeyKept (filters : List String) (key : String) : Bool :=
  let buildFilters := filters.filter (fun f => buildModes.contains f)
  let gameFilters := filters.filter (fun f => gameModes.contains f)
  let compFilters := filters.filter (fun f => compModes.contains f)
  let teamFilters := filters.filter (fun f => teamSizes.contains f)
  let inputFilters := filters.filter (fun f => inputTypes.contains f)
  (buildFilters.isEmpty || buildFilters.contains (rawBuildMode key)) &&
  (gameFilters.isEmpty || gameFilters.contains (rawGameMode key)) &&
  (if compFilters.isEmpty then !(rawCompMode key == "bots")
   else compFilters.contains (rawCompMode key)) &&
  (teamFilters.isEmpty || teamFilters.contains (rawTeamSize key)) &&
  (inputFilters.isEmpty || inputFilters.contains (rawInputType key))

/-- `filterRawFortniteStats` from `fortniteRawStatOps.js`: iterate the raw keys,
classify each, and copy the kept keys (with their values) into a fresh map. -/
def filterRawFortniteStats (raw : RawStats) (filters : List String) : RawStats :=
  ((raw.map Prod.fst).filter (rawKeyKept filters)).map
    (fun key => (key, (raw.lookup key).getD 0))

/-- Build-mode key filter of `createFortniteStatObject`
(`fortniteStructuredStatOps.js`): zeroBuild keys contain `nobuild`, build keys
do not. -/
def keyMatchesBuild (buildMode key : String) : Bool :=
  if buildMode == "zeroBuild" then jsIncludes key "nobuild"
  else !jsIncludes key "nobuild"

/-- Game-mode key filter of `createFortniteStatObject`
(`fortniteStructuredStatOps.js`). -/
def keyMatchesGame (gameMode key : String) : Bool :=
  (gameMode == "regular" &&
    (jsIncludes key "nobuildbr" || jsIncludes key "default")) ||
  (gameMode == "reload" &&
    (jsIncludes key "punchberry" || jsIncludes key "sunflower" ||
     jsIncludes key "blastberry"))

/-- Competitive-mode key filter of `createFortniteStatObject`
(`fortniteStructuredStatOps.js`). -/
def keyMatchesComp (compMode key : String) : Bool :=
  (compMode == "pubs" &&
    (!jsIncludes key "habanero" && !jsIncludes key "bots")) ||
  (compMode == "ranked" && jsIncludes key "habanero") ||
  (compMode == "bots" && jsIncludes key "bots")

/-- `rawStats.stats[key]` for a key taken from `Object.keys(rawStats.stats)`. -/
def statVal (raw : RawStats) (key : String) : Int :=
  (raw.lookup key).getD 0

/-- The `keyStat.reduce((sum, key) => sum + rawStats.stats[key], 0)` summation. -/
def sumStats (raw : RawStats) (ks : List String) : Int :=
  ks.foldl (fun sum key => sum + statVal raw key) 0

/-- A structured leaf: stat-kind name ↦ accumulated value. -/
abbrev TeamSizeObject := List (String × Int)

abbrev CompModeObject := List (String × TeamSizeObject)

abbrev GameModeObject := List (String × CompModeObject)

abbrev BuildModeObject := List (String × GameModeObject)

/-- The four-level structured stat tree (buildMode → gameMode → compMode →
teamSize → leaf). -/
abbrev StatObject := List (String × BuildModeObject)

/-- The per-team-size stat accumulation of `createFortniteStatObject`: one entry
per stat pattern with at least one matching key, holding the summed value. -/
def mkTeamSizeObject (raw : RawStats) (keySizeComp : List String) :
    TeamSizeObject :=
  statPattern.filterMap (fun sp =>
    let keyStat := keySizeComp.filter (fun key => jsIncludes key sp.2)
    if keyStat.isEmpty then none
    else some (sp.1, sumStats raw keyStat))

/-- The team-size level of `createFortniteStatObject`: reload skips trio; a team
size is emitted only when it has keys, a nonempty `matches` key set with nonzero
sum, and a nonempty stat object. -/
def mkCompModeObject (raw : RawStats) (gameMode : String)
    (keyComp : List String) : CompModeObject :=
  teamSizes.filterMap (fun size =>
    if gameMode == "reload" && size == "trio" then none
    else
      let keySizeComp := keyComp.filter (fun key => jsIncludes key size)
      if keySizeComp.isEmpty then none
      else
        let matchesKey :=
          keySizeComp.filter (fun key => jsIncludes key "br_matchesplayed")
        if matchesKey.isEmpty || sumStats raw matchesKey == 0 then none
        else
          let teamSizeObject := mkTeamSizeObject raw keySizeComp
          if teamSizeObject.isEmpty then none
          else some (size, teamSizeObject))

/-- The competitive-mode level of `createFortniteStatObject`: bots is skipped
unless requested, and a mode with no children is pruned. -/
def mkGameModeObject (raw : RawStats) (includeBots : Bool)
    (gameMode : String) (keyGame : List String) : GameModeObject :=
  compModes.filterMap (fun compMode =>
    if compMode == "bots" && !includeBots then none
    else
      let keyComp := keyGame.filter (keyMatchesComp compMode)
      if keyComp.isEmpty then none
      else
        let compModeObject := mkCompModeObject raw gameMode keyComp
        if compModeObject.isEmpty then none
        else some (compMode, compModeObject))

/-- The game-mode level of `createFortniteStatObject`: a game mode with no keys
or no children is pruned. -/
def mkBuildModeObject (raw : RawStats) (includeBots : Bool)
    (keyBuild : List String) : BuildModeObject :=
  gameModes.filterMap (fun gameMode =>
    let keyGame := keyBuild.filter (keyMatchesGame gameMode)
    if keyGame.isEmpty then none
    else
      let gameModeObject := mkGameModeObject raw includeBots gameMode keyGame
      if gameModeObject.isEmpty then none
      else some (gameMode, gameModeObject))

/-- `createFortniteStatObject` from `fortniteStructuredStatOps.js`: bucket every
raw key into the four-level taxonomy, keep only team sizes with nonzero match
totals, and prune childless branches. -/
def createFortniteStatObject (raw : RawStats) (includeBots : Bool) :
    StatObject :=
  let keys := raw.map Prod.fst
  if keys.isEmpty then []
  else
    buildModes.filterMap (fun buildMode =>
      let keyBuild := keys.filter (keyMatchesBuild buildMode)
      if keyBuild.isEmpty then none
      else
        let buildModeObject := mkBuildModeObject raw includeBots keyBuild
        if buildModeObject.isEmpty then none
        else some (buildMode, buildModeObject))

/-- The default bots exclusion of `filterFortniteStats` (`fn-stats-jnc-cli`
module sources): delete every comp-mode entry named `bots` unless `bots` is
among the comp filters. -/
def removeBotsStep (compFilters : List String) (stats : StatObject) :
    StatObject :=
  stats.map (fun bkv => (bkv.1, bkv.2.map (fun gkv =>
    (gkv.1, gkv.2.filter (fun ckv =>
      !(ckv.1 == "bots" && !compFilters.contains "bots"))))))

/-- `filterFortniteStats` from the CLI sources: deep-copy the tree (identity in
this value-level embedding), apply the bots and build default exclusions, then
narrow by the explicit game, comp and team filters when any filters were
given. -/
def filterFortniteStats (stats : StatObject) (filters : List String) :
    StatObject :=
  let buildFilters := filters.filter (fun f => buildModes.contains f)
  let gameFilters := filters.filter (fun f => gameModes.contains f)
  let compFilters := filters.filter (fun f => compModes.contains f)
  let teamFilters := filters.filter (fun f => teamSizes.contains f)
  let afterBots := removeBotsStep compFilters stats
  let afterBuild :=
    if buildFilters.isEmpty then
      afterBots.filter (fun bkv => !(bkv.1 == "build"))
    else
      afterBots.filter (fun bkv => buildFilters.contains bkv.1)
  if filters.isEmpty then afterBuild
  else
    let afterGame :=
      if gameFilters.isEmpty then afterBuild
      else afterBuild.map (fun bkv =>
        (bkv.1, bkv.2.filter (fun gkv => gameFilters.contains gkv.1)))
    let afterComp :=
      if compFilters.isEmpty then afterGame
      else afterGame.map (fun bkv => (bkv.1, bkv.2.map (fun gkv =>
        (gkv.1, gkv.2.filter (fun ckv => compFilters.contains ckv.1)))))
    if teamFilters.isEmpty then afterComp
    else afterComp.map (fun bkv => (bkv.1, bkv.2.map (fun gkv =>
      (gkv.1, gkv.2.map (fun ckv =>
        (ckv.1, ckv.2.filter (fun skv => teamFilters.contains skv.1)))))))

/-- JavaScript numbers as used by the rate annotator: finite values are exact
rationals, with the three IEEE non-finite behaviours the annotator's divisions
can produce. -/
inductive JSNum where
  | fin : ℚ → JSNum
  | posinf : JSNum
  | neginf : JSNum
  | nan : JSNum
deriving DecidableEq, Repr

/-- JavaScript subtraction on `JSNum`. -/
def jsSub : JSNum → JSNum → JSNum
  | .nan, _ => .nan
  | _, .nan => .nan
  | .fin a, .fin b => .fin (a - b)
  | .fin _, .posinf => .neginf
  | .fin _, .neginf => .posinf
  | .posinf, .fin _ => .posinf
  | .posinf, .neginf => .posinf
  | .posinf, .posinf => .nan
  | .neginf, .fin _ => .neginf
  | .neginf, .posinf => .neginf
  | .neginf, .neginf => .nan

/-- JavaScript multiplication on `JSNum`. -/
def jsMul : JSNum → JSNum → JSNum
  | .nan, _ => .nan
  | _, .nan => .nan
  | .fin a, .fin b => .fin (a * b)
  | .fin a, .posinf => if 0 < a then .posinf else if a < 0 then .neginf else .nan
  | .fin a, .neginf => if 0 < a then .neginf else if a < 0 then .posinf else .nan
  | .posinf, .fin b => if 0 < b then .posinf else if b < 0 then .neginf else .nan
  | .neginf, .fin b => if 0 < b then .neginf else if b < 0 then .posinf else .nan
  | .posinf, .posinf => .posinf
  | .posinf, .neginf => .neginf
  | .neginf, .posinf => .neginf
  | .neginf, .neginf => .posinf

/-- JavaScript division on `JSNum`: a positive finite value divided by zero is
`Infinity`, a negative one `-Infinity`, and `0/0` is `NaN`. -/
def jsDiv : JSNum → JSNum → JSNum
  | .nan, _ => .nan
  | _, .nan => .nan
  | .fin a, .fin b =>
      if b ≠ 0 then .fin (a / b)
      else if 0 < a then .posinf
      else if a < 0 then .neginf
      else .nan
  | .fin _, .posinf => .fin 0
  | .fin _, .neginf => .fin 0
  | .posinf, .fin b => if 0 ≤ b then .posinf else .neginf
  | .neginf, .fin b => if 0 ≤ b then .neginf else .posinf
  | .posinf, _ => .nan
  | .neginf, _ => .nan

/-- A JSON-style tree as walked by `addFortniteRateStats`: a value is a number
or an object with string fields. -/
inductive JTree where
  | num : JSNum → JTree
  | obj : List (String × JTree) → JTree

/-- JavaScript property assignment `o[k] = v`: update the field in place if it
exists, else append it. -/
def jsSet (kvs : List (String × JTree)) (k : String) (v : JTree) :
    List (String × JTree) :=
  if kvs.any (fun kv => kv.1 == k) then
    kvs.map (fun kv => if kv.1 == k then (k, v) else kv)
  else kvs ++ [(k, v)]

/-- `o.hasOwnProperty(k)`. -/
def hasField (kvs : List (String × JTree)) (k : String) : Bool :=
  kvs.any (fun kv => kv.1 == k)

/-- Coercion of a field's value into arithmetic: numbers are themselves, plain
objects coerce to `NaN` (as in JavaScript arithmetic on a plain object). -/
def toNum : JTree → JSNum
  | .num v => v
  | .obj _ => .nan

/-- Reading `o[k]` for use in arithmetic: a missing property is `undefined`,
which behaves as `NaN` in arithmetic. -/
def fieldNum (kvs : List (String × JTree)) (k : String) : JSNum :=
  match kvs.lookup k with
  | some t => toNum t
  | none => .nan

/-- Conditionally add one `topN → topNRate` entry:
`if (o.hasOwnProperty(topN)) o[topNRate] = o[topN]/o.matches`. -/
def addTopRate (kvs : List (String × JTree)) (topName rateName : String) :
    List (String × JTree) :=
  if hasField kvs topName then
    jsSet kvs rateName (.num (jsDiv (fieldNum kvs topName) (fieldNum kvs "matches")))
  else kvs

/-- The two default-insertion lines of the leaf branch of `recurseSummary`:
`if (!o.hasOwnProperty('wins')) o.wins = 0;` and the same for kills. -/
def withDefaults (kvs0 : List (String × JTree)) : List (String × JTree) :=
  let kvs1 :=
    if hasField kvs0 "wins" then kvs0 else jsSet kvs0 "wins" (.num (.fin 0))
  if hasField kvs1 "kills" then kvs1 else jsSet kvs1 "kills" (.num (.fin 0))

/-- `o.winRate = o.wins/o.matches`. -/
def withWinRate (kvs2 : List (String × JTree)) : List (String × JTree) :=
  jsSet kvs2 "winRate"
    (.num (jsDiv (fieldNum kvs2 "wins") (fieldNum kvs2 "matches")))

/-- The six conditional placement-rate lines (top3 … top25), in source order. -/
def withTopRates (kvs3 : List (String × JTree)) : List (String × JTree) :=
  addTopRate (addTopRate (addTopRate (addTopRate (addTopRate
    (addTopRate kvs3 "top3" "top3Rate") "top5" "top5Rate") "top6" "top6Rate")
    "top10" "top10Rate") "top12" "top12Rate") "top25" "top25Rate"

/-- The three combat-rate lines: killsPerDeath, killsPer20, minutesPerKill. -/
def withCombatRates (kvs9 : List (String × JTree)) : List (String × JTree) :=
  let kvs10 := jsSet kvs9 "killsPerDeath"
    (.num (jsDiv (fieldNum kvs9 "kills")
      (jsSub (fieldNum kvs9 "matches") (fieldNum kvs9 "wins"))))
  let kvs11 := jsSet kvs10 "killsPer20"
    (.num (jsDiv (jsMul (fieldNum kvs10 "kills") (.fin 20))
      (fieldNum kvs10 "minutes")))
  jsSet kvs11 "minutesPerKill"
    (.num (jsDiv (fieldNum kvs11 "minutes") (fieldNum kvs11 "kills")))

/-- The leaf branch of `recurseSummary` in `addFortniteRateStats`
(`fortniteStructuredStatOps.js`): default wins/kills to 0, then add winRate,
the placement rates, killsPerDeath, killsPer20 and minutesPerKill in source
order. -/
def annotateLeaf (kvs0 : List (String × JTree)) : List (String × JTree) :=
  withCombatRates (withTopRates (withWinRate (withDefaults kvs0)))

mutual

/-- `recurseSummary` of `addFortniteRateStats`: a node owning a `matches` field
is a leaf and gets the rate fields; any other object recurses into each child;
a bare number is returned unchanged. -/
def recurseSummary : JTree → JTree
  | .num v => .num v
  | .obj kvs =>
      if hasField kvs "matches" then .obj (annotateLeaf kvs)
      else .obj (recurseSummaryFields kvs)

/-- The `Object.keys(statSummary).forEach(e => statSummary[e] = …)` walk of
`recurseSummary` over a non-leaf object's children. -/
def recurseSummaryFields :
    List (String × JTree) → List (String × JTree)
  | [] => []
  | (k, t) :: rest => (k, recurseSummary t) :: recurseSummaryFields rest

end

/-- `addFortniteRateStats` from `fortniteStructuredStatOps.js`: deep-copy the
tree via a JSON round trip (the identity in this value-level embedding) and
annotate the copy. -/
def addFortniteRateStats (statObject : JTree) : JTree :=
  recurseSummary statObject

/-- A caller's reporting window `{startTime, endTime}` in epoch seconds. -/
structure TimeWindow where
  startTime : Int
  endTime : Int
deriving DecidableEq, Repr

/-- A computation that may issue snapshot fetches against the external stats
source (`epicClient.fortnite.getStats`), as a free program: each `fetch` names
the query window and continues with the returned snapshot. -/
inductive FetchProg (α : Type) where
  | pure : α → FetchProg α
  | fetch : TimeWindow → (RawStats → FetchProg α) → FetchProg α

/-- Run a fetch program against a pure model of the external source, returning
the result together with the ordered trace of issued query windows. -/
def runFetch {α : Type} (source : TimeWindow → RawStats) :
    FetchProg α → α × List TimeWindow
  | .pure a => (a, [])
  | .fetch w k =>
      let rest := runFetch source (k (source w))
      (rest.1, w :: rest.2)

/-- The advanced (triple-call) branch of `getFortniteStats`
(`statsRetriever.js`): fetch from the ch1s1 origin to
`min(endTime, tomorrowMidnightGMT)`, fetch from the origin to the requested
start time, and subtract.  `ch1s1Start` is `seasonTimestamps.ch1s1.startTime`
and `tomorrowMidnightGMT` the next UTC midnight, both inputs here. -/
def getFortniteStatsAdvanced (ch1s1Start tomorrowMidnightGMT : Int)
    (timeWindow : TimeWindow) : FetchProg RawStats :=
  let fromCh1s1ToNowOrEnd : TimeWindow :=
    { startTime := ch1s1Start,
      endTime :=
        if timeWindow.endTime < tomorrowMidnightGMT then timeWindow.endTime
        else tomorrowMidnightGMT }
  .fetch fromCh1s1ToNowOrEnd (fun statsToNowOrEnd =>
    let fromCh1s1ToStart : TimeWindow :=
      { startTime := ch1s1Start, endTime := timeWindow.startTime }
    .fetch fromCh1s1ToStart (fun statsToStart =>
      .pure (subtractRawFortniteStats statsToNowOrEnd statsToStart)))

/-! ### A heap model for the mutation claim

`addFortniteRateStats` first deep-copies its argument with a JSON round trip
and then mutates the copy in place.  To state that the caller's tree is not
mutated we model JavaScript objects on an explicit heap: a value is a number or
a reference to a heap cell, and a cell holds an object's fields. -/

abbrev Addr := Nat

/-- A JavaScript runtime value: a (primitive) number or an object reference. -/
inductive JSVal where
  | num : JSNum → JSVal
  | ref : Addr → JSVal
deriving DecidableEq, Repr

abbrev JSFields := List (String × JSVal)

/-- A heap of object cells; the address of a cell is its index. -/
structure JSHeap where
  cells : List JSFields
deriving Repr

/-- Dereference an object. -/
def readCell (h : JSHeap) (a : Addr) : Option JSFields :=
  h.cells.get? a

/-- Overwrite an object's fields in place. -/
def writeCell (h : JSHeap) (a : Addr) (fs : JSFields) : JSHeap :=
  ⟨h.cells.set a fs⟩

/-- Allocate a new object. -/
def allocCell (h : JSHeap) (fs : JSFields) : JSHeap × Addr :=
  (⟨h.cells ++ [fs]⟩, h.cells.length)

mutual

/-- Read the pure tree denoted by a heap value (the `JSON.stringify` view);
`fuel` bounds the recursion depth. -/
def readTree : Nat → JSHeap → JSVal → Option JTree
  | _, _, .num v => some (.num v)
  | 0, _, .ref _ => none
  | fuel + 1, h, .ref a =>
      (readCell h a).bind (fun fs => (readFields fuel h fs).map .obj)
termination_by structural fuel _ _ => fuel

/-- Read every field value of an object. -/
def readFields : Nat → JSHeap → JSFields → Option (List (String × JTree))
  | _, _, [] => some []
  | 0, _, _ :: _ => none
  | fuel + 1, h, (k, v) :: rest =>
      (readTree fuel h v).bind (fun t =>
        (readFields fuel h rest).map (fun ts => (k, t) :: ts))
termination_by structural fuel _ _ => fuel

end

mutual

/-- Materialise a pure tree as fresh heap objects (the `JSON.parse` half of the
deep copy; finite numbers, as produced by the structurer, round-trip
unchanged). -/
def copyTree : JSHeap → JTree → JSHeap × JSVal
  | h, .num v => (h, .num v)
  | h, .obj kvs =>
      let hfs := copyFields h kvs
      let ha := allocCell hfs.1 hfs.2
      (ha.1, .ref ha.2)

/-- Materialise each field of an object. -/
def copyFields : JSHeap → List (String × JTree) → JSHeap × JSFields
  | h, [] => (h, [])
  | h, (k, t) :: rest =>
      let hv := copyTree h t
      let hvs := copyFields hv.1 rest
      (hvs.1, (k, hv.2) :: hvs.2)

end

/-- `o[k] = v` on heap-level fields (update in place, else append). -/
def jsSetV (kvs : JSFields) (k : String) (v : JSVal) : JSFields :=
  if kvs.any (fun kv => kv.1 == k) then
    kvs.map (fun kv => if kv.1 == k then (k, v) else kv)
  else kvs ++ [(k, v)]

/-- `o.hasOwnProperty(k)` on heap-level fields. -/
def hasFieldV (kvs : JSFields) (k : String) : Bool :=
  kvs.any (fun kv => kv.1 == k)

/-- Arithmetic coercion of a heap value: an object reference behaves as `NaN`
in JavaScript arithmetic. -/
def toNumV : JSVal → JSNum
  | .num v => v
  | .ref _ => .nan

/-- Reading `o[k]` for arithmetic on heap-level fields. -/
def fieldNumV (kvs : JSFields) (k : String) : JSNum :=
  match kvs.lookup k with
  | some v => toNumV v
  | none => .nan

/-- Heap-level `if (o.hasOwnProperty(topN)) o[topNRate] = o[topN]/o.matches`. -/
def addTopRateV (kvs : JSFields) (topName rateName : String) : JSFields :=
  if hasFieldV kvs topName then
    jsSetV kvs rateName
      (.num (jsDiv (fieldNumV kvs topName) (fieldNumV kvs "matches")))
  else kvs

/-- The leaf branch of `recurseSummary`, acting on an object's heap-level
fields (same source lines as `annotateLeaf`, here for the in-place update
semantics). -/
def annotateLeafV (kvs0 : JSFields) : JSFields :=
  let kvs1 :=
    if hasFieldV kvs0 "wins" then kvs0 else jsSetV kvs0 "wins" (.num (.fin 0))
  let kvs2 :=
    if hasFieldV kvs1 "kills" then kvs1 else jsSetV kvs1 "kills" (.num (.fin 0))
  let kvs3 := jsSetV kvs2 "winRate"
    (.num (jsDiv (fieldNumV kvs2 "wins") (fieldNumV kvs2 "matches")))
  let kvs9 := addTopRateV (addTopRateV (addTopRateV (addTopRateV (addTopRateV
    (addTopRateV kvs3 "top3" "top3Rate") "top5" "top5Rate") "top6" "top6Rate")
    "top10" "top10Rate") "top12" "top12Rate") "top25" "top25Rate"
  let kvs10 := jsSetV kvs9 "killsPerDeath"
    (.num (jsDiv (fieldNumV kvs9 "kills")
      (jsSub (fieldNumV kvs9 "matches") (fieldNumV kvs9 "wins"))))
  let kvs11 := jsSetV kvs10 "killsPer20"
    (.num (jsDiv (jsMul (fieldNumV kvs10 "kills") (.fin 20))
      (fieldNumV kvs10 "minutes")))
  jsSetV kvs11 "minutesPerKill"
    (.num (jsDiv (fieldNumV kvs11 "minutes") (fieldNumV kvs11 "kills")))

mutual

/-- `recurseSummary` as it actually executes: mutating the (copied) object
graph in place.  A leaf object (owning `matches`) has its fields rewritten; a
non-leaf object has each child processed and reassigned. -/
def recurseSummaryM : Nat → JSHeap → JSVal → JSHeap × JSVal
  | _, h, .num v => (h, .num v)
  | 0, h, .ref a => (h, .ref a)
  | fuel + 1, h, .ref a =>
      match readCell h a with
      | none => (h, .ref a)
      | some fs =>
          if hasFieldV fs "matches" then
            (writeCell h a (annotateLeafV fs), .ref a)
          else
            (recurseKeysM fuel h a (fs.map Prod.fst), .ref a)
termination_by structural fuel _ _ => fuel

/-- The `Object.keys(o).forEach(e => o[e] = recurseSummary(o[e]))` loop:
process each child and write the (identical, possibly mutated) value back. -/
def recurseKeysM : Nat → JSHeap → Addr → List String → JSHeap
  | _, h, _, [] => h
  | 0, h, _, _ :: _ => h
  | fuel + 1, h, a, k :: rest =>
      match readCell h a with
      | none => h
      | some fs =>
          let v := (fs.lookup k).getD (.num .nan)
          let hv := recurseSummaryM fuel h v
          let h2 :=
            match readCell hv.1 a with
            | some fs1 => writeCell hv.1 a (jsSetV fs1 k hv.2)
            | none => hv.1
          recurseKeysM fuel h2 a rest
termination_by structural fuel _ _ _ => fuel

end

/-- `addFortniteRateStats` at the heap level: `JSON.parse(JSON.stringify(x))`
materialises a fresh copy of the argument's tree, and `recurseSummary` then
mutates only that copy. -/
def addFortniteRateStatsM (fuel : Nat) (h : JSHeap) (root : JSVal) :
    JSHeap × JSVal :=
  match readTree fuel h root with
  | none => (h, root)
  | some t =>
      let hcopy := copyTree h t
      recurseSummaryM fuel hcopy.1 hcopy.2

/-! ### Association-list lemmas -/

theorem lookup_some_mem {β : Type} {l : List (String × β)} {k : String}
    {v : β} (h : l.lookup k = some v) : (k, v) ∈ l := by
  induction l with
  | nil => simp [List.lookup] at h
  | cons kv rest ih =>
    rw [List.lookup] at h
    by_cases hk : k = kv.1
    · subst hk
      simp at h
      subst h
      exact List.mem_cons_self _ _
    · have hbeq : (k == kv.1) = false := by simp [hk]
      rw [hbeq] at h
      exact List.mem_cons_of_mem _ (ih h)

theorem lookup_none_of_not_key {β : Type} {l : List (String × β)} {k : String}
    (h : k ∉ l.map Prod.fst) : l.lookup k = none := by
  induction l with
  | nil => rfl
  | cons kv rest ih =>
    simp only [List.map_cons, List.mem_cons] at h
    push_neg at h
    rw [List.lookup]
    have hbeq : (k == kv.1) = false := by simp [h.1]
    rw [hbeq]
    exact ih h.2

theorem lookup_filter_key {β : Type} (l : List (String × β))
    (q : String → Bool) (k : String) (hq : q k = true) :
    (l.filter (fun kv => q kv.1)).lookup k = l.lookup k := by
  induction l with
  | nil => rfl
  | cons kv rest ih =>
    by_cases hk : k = kv.1
    · subst hk
      simp [List.filter, hq, List.lookup]
    · have hbeq : (k == kv.1) = false := by simp [hk]
      by_cases hkv : q kv.1
      · simp [List.filter, hkv, List.lookup, hbeq, ih]
      · simp only [Bool.not_eq_true] at hkv
        simp [List.filter, hkv, List.lookup, hbeq, ih]

/-! ### Claim C1: the window subtractor -/

/-- The per-key value computed by `subtractRawFortniteStats`. -/
def subtractedVal (larger smaller : RawStats) (key : String) : Int :=
  if jsIncludes key "lastmodified" then (larger.lookup key).getD 0
  else (larger.lookup key).getD 0 - (smaller.lookup key).getD 0

theorem subtractRaw_tabulated (larger smaller : RawStats) :
    subtractRawFortniteStats larger smaller =
      (unionKeys larger smaller).map
        (fun key => (key, subtractedVal larger smaller key)) := by
  unfold subtractRawFortniteStats subtractedVal
  apply List.map_congr_left
  intro k _
  by_cases h : jsIncludes k "lastmodified" <;> simp [h]

theorem subtractRaw_lookup (larger smaller : RawStats) (k : String) :
    (subtractRawFortniteStats larger smaller).lookup k =
      if k ∈ unionKeys larger smaller
      then some (subtractedVal larger smaller k) else none := by
  rw [subtractRaw_tabulated, lookup_map_fn]

/-- C1: `subtractRawFortniteStats(L, S)` covers exactly the union of the two
key sets; a non-`lastmodified` key gets (L's value or 0) − (S's value or 0),
and a `lastmodified` key gets L's value (or 0), never a difference of the two
timestamps. -/
theorem subtractRawFortniteStats_spec (larger smaller : RawStats) :
    (∀ k, k ∈ (subtractRawFortniteStats larger smaller).map Prod.fst ↔
        (k ∈ larger.map Prod.fst ∨ k ∈ smaller.map Prod.fst)) ∧
    (∀ k, jsIncludes k "lastmodified" = false →
        (k ∈ larger.map Prod.fst ∨ k ∈ smaller.map Prod.fst) →
        (subtractRawFortniteStats larger smaller).lookup k =
          some ((larger.lookup k).getD 0 - (smaller.lookup k).getD 0)) ∧
    (∀ k, jsIncludes k "lastmodified" = true →
        (k ∈ larger.map Prod.fst ∨ k ∈ smaller.map Prod.fst) →
        (subtractRawFortniteStats larger smaller).lookup k =
          some ((larger.lookup k).getD 0)) := by
  have hkeys : (subtractRawFortniteStats larger smaller).map Prod.fst =
      unionKeys larger smaller := by
    rw [subtractRaw_tabulated, List.map_map]
    have : (Prod.fst ∘ fun key => (key, subtractedVal larger smaller key)) =
        fun key => key := rfl
    rw [this, List.map_id']
  refine ⟨?_, ?_, ?_⟩
  · intro k
    rw [hkeys, mem_unionKeys]
  · intro k hlm hmem
    rw [subtractRaw_lookup, if_pos ((mem_unionKeys _ _ _).2 hmem)]
    unfold subtractedVal
    rw [hlm]
    simp
  · intro k hlm hmem
    rw [subtractRaw_lookup, if_pos ((mem_unionKeys _ _ _).2 hmem)]
    unfold subtractedVal
    rw [hlm]
    simp

/-- Concrete snapshots exercising C1: a counter present on both sides, one
missing from each side, and a timestamp key present on both sides with
different values. -/
def exampleLarger : RawStats :=
  [("br_kills_keyboardmouse_m0_playlist_nobuildbr_solo", 10),
   ("br_matchesplayed_keyboardmouse_m0_playlist_nobuildbr_solo", 4),
   ("br_kills_keyboardmouse_m0_playlist_nobuildbr_solo_lastmodified", 1700000000)]

def exampleSmaller : RawStats :=
  [("br_kills_keyboardmouse_m0_playlist_nobuildbr_solo", 3),
   ("br_kills_keyboardmouse_m0_playlist_nobuildbr_solo_lastmodified", 1600000000),
   ("br_minutesplayed_keyboardmouse_m0_playlist_nobuildbr_duo", 25)]

theorem subtractRawFortniteStats_spec_witness :
    (subtractRawFortniteStats exampleLarger exampleSmaller).lookup
        "br_kills_keyboardmouse_m0_playlist_nobuildbr_solo" = some 7 ∧
    (subtractRawFortniteStats exampleLarger exampleSmaller).lookup
        "br_minutesplayed_keyboardmouse_m0_playlist_nobuildbr_duo" = some (-25) ∧
    (subtractRawFortniteStats exampleLarger exampleSmaller).lookup
        "br_kills_keyboardmouse_m0_playlist_nobuildbr_solo_lastmodified" =
      some 1700000000 := by
  have h := subtractRawFortniteStats_spec exampleLarger exampleSmaller
  refine ⟨?_, ?_, ?_⟩
  · exact (h.2.1 _ (by decide) (by decide)).trans (by decide)
  · exact (h.2.1 _ (by decide) (by decide)).trans (by decide)
  · exact (h.2.2 _ (by decide) (by decide)).trans (by decide)

/-! ### Claim C6: competitive-mode tie-break -/

/-- C6: the competitive-mode classifier answers `ranked` whenever the ranked
marker `habanero` is present (even together with the bots marker), else `bots`
when the bots marker is present, else the fallback `pubs`. -/
theorem rawCompMode_tie_break :
    (∀ key, jsIncludes key "habanero" = true → rawCompMode key = "ranked") ∧
    (∀ key, jsIncludes key "habanero" = false → jsIncludes key "bots" = true →
      rawCompMode key = "bots") ∧
    (∀ key, jsIncludes key "habanero" = false → jsIncludes key "bots" = false →
      rawCompMode key = "pubs") := by
  refine ⟨?_, ?_, ?_⟩ <;> intro key h <;> simp [rawCompMode, h]

theorem rawCompMode_tie_break_witness :
    rawCompMode "br_kills_habanerobots_duo" = "ranked" ∧
    rawCompMode "br_kills_botsonly_duo" = "bots" ∧
    rawCompMode "br_kills_default_duo" = "pubs" := by
  refine ⟨?_, ?_, ?_⟩
  · exact (rawCompMode_tie_break).1 _ (by decide)
  · exact (rawCompMode_tie_break).2.1 _ (by decide) (by decide)
  · exact (rawCompMode_tie_break).2.2 _ (by decide) (by decide)

/-! ### Claim C7: team-size fallback

The team-size loop of `filterRawFortniteStats` initialises its result with the
literal `'uknown'` (a typo in the source: the game-mode and input-type
dimensions of the same function use `'unknown'`), so a key carrying no
team-size marker is classified as `"uknown"`, not `"unknown"`. -/

/-- C7 (counter-evidence): a key containing none of solo/duo/trio/squad is
classified as the source's literal `"uknown"`, which differs from the
`"unknown"` the specification states; the first-marker-in-fixed-order half of
the claim does hold (a key containing both `squad` and `duo` classifies as
`duo`, the earlier entry in the checking order). -/
theorem rawTeamSize_uknown_typo :
    rawTeamSize "br_matchesplayed_keyboardmouse_m0_playlist_nobuildbr" =
      "uknown" ∧
    "uknown" ≠ "unknown" ∧
    rawTeamSize "br_kills_squadduo_x" = "duo" := by
  refine ⟨by decide, by decide, by decide⟩

/-! ### Claim C10: the raw filter with no filters -/

theorem rawKeyKept_nil (key : String) :
    rawKeyKept [] key = !(rawCompMode key == "bots") := by
  simp [rawKeyKept]

theorem filter_keys_tabulated (raw : RawStats) (p : String → Bool)
    (hnd : (raw.map Prod.fst).Nodup) :
    ((raw.map Prod.fst).filter p).map
        (fun key => (key, (raw.lookup key).getD 0)) =
      raw.filter (fun kv => p kv.1) := by
  induction raw with
  | nil => rfl
  | cons kv rest ih =>
    simp only [List.map_cons, List.nodup_cons] at hnd
    have hhead : List.lookup kv.1 (kv :: rest) = some kv.2 := by
      rw [List.lookup]
      simp
    have htail : ∀ k', k' ∈ rest.map Prod.fst →
        List.lookup k' (kv :: rest) = List.lookup k' rest := by
      intro k' hk'
      have hne : k' ≠ kv.1 := by
        intro hcontra
        exact hnd.1 (hcontra ▸ hk')
      rw [List.lookup]
      have : (k' == kv.1) = false := by simp [hne]
      rw [this]
    have hmapeq :
        List.map (fun key => (key, (List.lookup key (kv :: rest)).getD 0))
            ((rest.map Prod.fst).filter p) =
          List.map (fun key => (key, (List.lookup key rest).getD 0))
            ((rest.map Prod.fst).filter p) := by
      apply List.map_congr_left
      intro k' hk'
      rw [htail k' (List.mem_of_mem_filter hk')]
    by_cases hp : p kv.1
    · simp only [List.map_cons, List.filter_cons, hp, if_true]
      rw [hhead]
      simp only [Option.getD_some]
      rw [hmapeq, ih hnd.2]
    · simp only [List.map_cons, List.filter_cons, hp]
      simp only [Bool.false_eq_true, if_false]
      rw [hmapeq, ih hnd.2]

/-- C10: with an empty filter list, `filterRawFortniteStats` keeps exactly the
keys whose competitive-mode classification is not `bots`, each with its
original value; no build-mode, game-mode or team-size default is applied on
the raw path. -/
theorem filterRawFortniteStats_nil (raw : RawStats)
    (hnd : (raw.map Prod.fst).Nodup) :
    filterRawFortniteStats raw [] =
      raw.filter (fun kv => !(rawCompMode kv.1 == "bots")) := by
  unfold filterRawFortniteStats
  have hkept : (raw.map Prod.fst).filter (rawKeyKept []) =
      (raw.map Prod.fst).filter (fun key => !(rawCompMode key == "bots")) := by
    apply List.filter_congr
    intro k _
    exact rawKeyKept_nil k
  rw [hkept, filter_keys_tabulated raw _ hnd]

/-- Raw stats exercising C10: a bots key (dropped), a build-mode key, an
unknown-game-mode key and an unknown-team-size key (all kept). -/
def exampleRawMixed : RawStats :=
  [("br_matchesplayed_gamepad_m0_playlist_nobuildbr_bots_solo", 5),
   ("br_kills_gamepad_m0_playlist_defaultsolo", 9),
   ("br_kills_gamepad_m0_playlist_weirdmode_duo", 3),
   ("br_kills_gamepad_m0_playlist_nobuildbr", 4)]

theorem filterRawFortniteStats_nil_witness :
    filterRawFortniteStats exampleRawMixed [] =
      [("br_kills_gamepad_m0_playlist_defaultsolo", 9),
       ("br_kills_gamepad_m0_playlist_weirdmode_duo", 3),
       ("br_kills_gamepad_m0_playlist_nobuildbr", 4)] := by
  exact (filterRawFortniteStats_nil exampleRawMixed (by decide)).trans (by decide)

/-! ### Claim C5: the triple-call retrieval strategy -/

/-- C5: the advanced branch of `getFortniteStats` issues exactly two fetches,
both anchored at the ch1s1 origin — the first ending at
`min(window.endTime, tomorrowMidnightGMT)`, the second at `window.startTime` —
and returns `subtractRawFortniteStats` of the first (larger) and second
(smaller) snapshots. -/
theorem getFortniteStatsAdvanced_spec (ch1s1Start tomorrowMidnightGMT : Int)
    (timeWindow : TimeWindow) (source : TimeWindow → RawStats) :
    runFetch source
        (getFortniteStatsAdvanced ch1s1Start tomorrowMidnightGMT timeWindow) =
      (subtractRawFortniteStats
         (source ⟨ch1s1Start, min timeWindow.endTime tomorrowMidnightGMT⟩)
         (source ⟨ch1s1Start, timeWindow.startTime⟩),
       [⟨ch1s1Start, min timeWindow.endTime tomorrowMidnightGMT⟩,
        ⟨ch1s1Start, timeWindow.startTime⟩]) := by
  have hmin :
      (if timeWindow.endTime < tomorrowMidnightGMT then timeWindow.endTime
       else tomorrowMidnightGMT) = min timeWindow.endTime tomorrowMidnightGMT := by
    rcases lt_or_le timeWindow.endTime tomorrowMidnightGMT with h | h
    · rw [if_pos h, min_eq_left (le_of_lt h)]
    · rw [if_neg (not_lt.2 h), min_eq_right h]
  unfold getFortniteStatsAdvanced
  rw [hmin]
  rfl

/-! ### Claim C4: structured filter defaults -/

theorem lookup_filter_key_none {β : Type} (l : List (String × β))
    (q : String → Bool) (k : String) (hq : q k = false) :
    (l.filter (fun kv => q kv.1)).lookup k = none := by
  apply lookup_none_of_not_key
  intro hmem
  rcases List.mem_map.1 hmem with ⟨kv, hkv, hfst⟩
  have := List.of_mem_filter hkv
  rw [hfst] at this
  rw [hq] at this
  exact Bool.false_ne_true this

/-- No comp-mode entry named `bots` anywhere in the tree. -/
def NoBots (t : StatObject) : Prop :=
  ∀ bkv ∈ t, ∀ gkv ∈ bkv.2, ∀ ckv ∈ gkv.2, ckv.1 ≠ "bots"

theorem noBots_removeBotsStep (compFilters : List String)
    (hcf : compFilters.contains "bots" = false) (t : StatObject) :
    NoBots (removeBotsStep compFilters t) := by
  intro bkv hb gkv hg ckv hc
  unfold removeBotsStep at hb
  rcases List.mem_map.1 hb with ⟨bkv0, _, hbeq⟩
  subst hbeq
  rcases List.mem_map.1 hg with ⟨gkv0, _, hgeq⟩
  subst hgeq
  have hpred := List.of_mem_filter hc
  simp only [hcf] at hpred
  simp only [Bool.not_false, Bool.and_true, Bool.not_eq_true'] at hpred
  intro hbots
  rw [hbots] at hpred
  simp at hpred

theorem noBots_filter (t : StatObject) (p : String × BuildModeObject → Bool)
    (h : NoBots t) : NoBots (t.filter p) := by
  intro bkv hb
  exact h bkv (List.mem_of_mem_filter hb)

theorem noBots_gameStep (t : StatObject) (q : String × GameModeObject → Bool)
    (h : NoBots t) :
    NoBots (t.map (fun bkv => (bkv.1, bkv.2.filter q))) := by
  intro bkv hb gkv hg ckv hc
  rcases List.mem_map.1 hb with ⟨bkv0, hb0, hbeq⟩
  subst hbeq
  exact h bkv0 hb0 gkv (List.mem_of_mem_filter hg) ckv hc

theorem noBots_compStep (t : StatObject)
    (q : String × CompModeObject → Bool) (h : NoBots t) :
    NoBots (t.map (fun bkv => (bkv.1, bkv.2.map (fun gkv =>
      (gkv.1, gkv.2.filter q))))) := by
  intro bkv hb gkv hg ckv hc
  rcases List.mem_map.1 hb with ⟨bkv0, hb0, hbeq⟩
  subst hbeq
  rcases List.mem_map.1 hg with ⟨gkv0, hg0, hgeq⟩
  subst hgeq
  exact h bkv0 hb0 gkv0 hg0 ckv (List.mem_of_mem_filter hc)

theorem noBots_teamStep (t : StatObject)
    (f : String × TeamSizeObject → Bool) (h : NoBots t) :
    NoBots (t.map (fun bkv => (bkv.1, bkv.2.map (fun gkv =>
      (gkv.1, gkv.2.map (fun ckv => (ckv.1, ckv.2.filter f))))))) := by
  intro bkv hb gkv hg ckv hc
  rcases List.mem_map.1 hb with ⟨bkv0, hb0, hbeq⟩
  subst hbeq
  rcases List.mem_map.1 hg with ⟨gkv0, hg0, hgeq⟩
  subst hgeq
  rcases List.mem_map.1 hc with ⟨ckv0, hc0, hceq⟩
  subst hceq
  exact h bkv0 hb0 gkv0 hg0 ckv0 hc0

theorem noBots_lookup_none (t : StatObject) (h : NoBots t) (b g : String) :
    (((t.lookup b).bind (fun bo => bo.lookup g)).bind
        (fun go => go.lookup "bots")) = none := by
  cases hb : t.lookup b with
  | none => rfl
  | some bo =>
    cases hg : bo.lookup g with
    | none =>
      show (bo.lookup g).bind (fun go => go.lookup "bots") = none
      rw [hg]
      rfl
    | some go =>
      show (bo.lookup g).bind (fun go => go.lookup "bots") = none
      rw [hg]
      show go.lookup "bots" = none
      apply lookup_none_of_not_key
      intro hmem
      rcases List.mem_map.1 hmem with ⟨ckv, hckv, hfst⟩
      exact h (b, bo) (lookup_some_mem hb) (g, go) (lookup_some_mem hg)
        ckv hckv hfst

theorem contains_false_not_mem (l : List String) (a : String)
    (h : l.contains a = false) : a ∉ l := by
  simpa using h

theorem noBots_filterFortniteStats (stats : StatObject)
    (filters : List String) (h : filters.contains "bots" = false) :
    NoBots (filterFortniteStats stats filters) := by
  have hnotmem : "bots" ∉ filters := contains_false_not_mem _ _ h
  have hcf : (filters.filter (fun f => compModes.contains f)).contains "bots"
      = false := by
    simp only [List.contains_eq_any_beq, List.any_eq_false, beq_iff_eq]
    intro x hx hxeq
    exact hnotmem (hxeq ▸ List.mem_of_mem_filter hx)
  unfold filterFortniteStats
  have hbots : NoBots (removeBotsStep
      (filters.filter (fun f => compModes.contains f)) stats) :=
    noBots_removeBotsStep _ hcf stats
  by_cases hbf : (filters.filter (fun f => buildModes.contains f)).isEmpty
  all_goals by_cases hfe : filters.isEmpty
  all_goals by_cases hgf : (filters.filter (fun f => gameModes.contains f)).isEmpty
  all_goals by_cases hcfe : (filters.filter (fun f => compModes.contains f)).isEmpty
  all_goals by_cases htf : (filters.filter (fun f => teamSizes.contains f)).isEmpty
  all_goals simp only [hbf, hfe, hgf, hcfe, htf, if_true, if_false,
    Bool.false_eq_true]
  all_goals first
    | exact noBots_filter _ _ hbots
    | (apply noBots_teamStep; first
        | exact noBots_filter _ _ hbots
        | (apply noBots_gameStep; exact noBots_filter _ _ hbots)
        | (apply noBots_compStep; exact noBots_filter _ _ hbots)
        | (apply noBots_compStep; apply noBots_gameStep;
           exact noBots_filter _ _ hbots))
    | (apply noBots_gameStep; exact noBots_filter _ _ hbots)
    | (apply noBots_compStep; exact noBots_filter _ _ hbots)
    | (apply noBots_compStep; apply noBots_gameStep;
       exact noBots_filter _ _ hbots)

/-- C4: `filterFortniteStats` removes every `bots` branch whenever `bots` is
not among the filter tokens (even when other comp-mode tokens are), and with
an empty filter list it removes the `build` build mode while keeping
`zeroBuild` (with only the bots default applied beneath it). -/
theorem filterFortniteStats_defaults :
    (∀ stats filters, filters.contains "bots" = false → ∀ b g,
      (((filterFortniteStats stats filters).lookup b).bind
          (fun bo => bo.lookup g)).bind (fun go => go.lookup "bots") = none) ∧
    (∀ stats : StatObject,
      (filterFortniteStats stats []).lookup "build" = none) ∧
    (∀ stats : StatObject,
      (filterFortniteStats stats []).lookup "zeroBuild" =
        (removeBotsStep [] stats).lookup "zeroBuild") := by
  have hnil : ∀ stats : StatObject, filterFortniteStats stats [] =
      (removeBotsStep [] stats).filter (fun bkv => !(bkv.1 == "build")) := by
    intro stats
    rfl
  refine ⟨?_, ?_, ?_⟩
  · intro stats filters h b g
    exact noBots_lookup_none _ (noBots_filterFortniteStats stats filters h) b g
  · intro stats
    rw [hnil]
    exact lookup_filter_key_none _ (fun b => !(b == "build")) _ (by decide)
  · intro stats
    rw [hnil]
    exact lookup_filter_key _ (fun b => !(b == "build")) _ (by decide)

/-- A structured tree exercising C4: bots branches under both build modes, a
ranked branch, and a `build` top-level branch. -/
def exampleTree : StatObject :=
  [("zeroBuild",
     [("regular",
        [("pubs", [("solo", [("matches", 3)])]),
         ("ranked", [("duo", [("matches", 2)])]),
         ("bots", [("squad", [("matches", 1)])])])]),
   ("build",
     [("regular",
        [("pubs", [("solo", [("matches", 4)])]),
         ("bots", [("solo", [("matches", 6)])])])])]

theorem filterFortniteStats_defaults_witness :
    (((filterFortniteStats exampleTree ["ranked"]).lookup "zeroBuild").bind
        (fun bo => bo.lookup "regular")).bind (fun go => go.lookup "bots")
      = none ∧
    (filterFortniteStats exampleTree []).lookup "build" = none ∧
    (filterFortniteStats exampleTree []).lookup "zeroBuild" =
      some [("regular",
        [("pubs", [("solo", [("matches", 3)])]),
         ("ranked", [("duo", [("matches", 2)])])])] := by
  refine ⟨?_, ?_, ?_⟩
  · exact filterFortniteStats_defaults.1 exampleTree ["ranked"] (by decide)
      "zeroBuild" "regular"
  · exact filterFortniteStats_defaults.2.1 exampleTree
  · exact (filterFortniteStats_defaults.2.2 exampleTree).trans (by rfl)

/-! ### Claims C2 and C8: structurer gating and pruning -/

/-- The raw keys the structurer assigns to one
(buildMode, gameMode, compMode, teamSize) quadruple: the same filter chain the
nested loops of `createFortniteStatObject` apply. -/
def quadKeys (raw : RawStats) (b g c s : String) : List String :=
  ((((raw.map Prod.fst).filter (keyMatchesBuild b)).filter
      (keyMatchesGame g)).filter (keyMatchesComp c)).filter
    (fun key => jsIncludes key s)

/-- The quadruple's keys carrying the `matches` stat pattern. -/
def matchesOf (raw : RawStats) (b g c s : String) : List String :=
  (quadKeys raw b g c s).filter (fun key => jsIncludes key "br_matchesplayed")

/-- Walk the structured tree down to one team-size leaf. -/
def treeLookup (t : StatObject) (b g c s : String) : Option TeamSizeObject :=
  (((t.lookup b).bind (fun bo => bo.lookup g)).bind
      (fun go => go.lookup c)).bind (fun co => co.lookup s)

theorem mem_mkCompModeObject {raw : RawStats} {g : String}
    {keyComp : List String} {skv : String × TeamSizeObject}
    (h : skv ∈ mkCompModeObject raw g keyComp) :
    (g = "reload" → skv.1 ≠ "trio") ∧
    (keyComp.filter (fun key => jsIncludes key skv.1)).filter
        (fun key => jsIncludes key "br_matchesplayed") ≠ [] ∧
    sumStats raw ((keyComp.filter (fun key => jsIncludes key skv.1)).filter
        (fun key => jsIncludes key "br_matchesplayed")) ≠ 0 ∧
    skv.2 = mkTeamSizeObject raw
        (keyComp.filter (fun key => jsIncludes key skv.1)) ∧
    skv.2 ≠ [] := by
  unfold mkCompModeObject at h
  rcases List.mem_filterMap.1 h with ⟨size, _, heq⟩
  by_cases h1 : (g == "reload" && size == "trio") = true
  · rw [if_pos h1] at heq; cases heq
  · rw [if_neg h1] at heq
    simp only [] at heq
    by_cases h2 : ((keyComp.filter (fun key => jsIncludes key size)).isEmpty)
        = true
    · rw [if_pos h2] at heq; cases heq
    · rw [if_neg h2] at heq
      by_cases h3 : (((keyComp.filter (fun key => jsIncludes key size)).filter
          (fun key => jsIncludes key "br_matchesplayed")).isEmpty ||
          (sumStats raw ((keyComp.filter (fun key => jsIncludes key size)).filter
            (fun key => jsIncludes key "br_matchesplayed")) == 0)) = true
      · rw [if_pos h3] at heq; cases heq
      · rw [if_neg h3] at heq
        by_cases h4 : ((mkTeamSizeObject raw
            (keyComp.filter (fun key => jsIncludes key size))).isEmpty) = true
        · rw [if_pos h4] at heq; cases heq
        · rw [if_neg h4] at heq
          have hskv := Option.some.inj heq
          have hfst : skv.1 = size := by rw [← hskv]
          have hsnd : skv.2 = mkTeamSizeObject raw
              (keyComp.filter (fun key => jsIncludes key size)) := by
            rw [← hskv]
          rw [Bool.or_eq_true, not_or] at h3
          refine ⟨?_, ?_, ?_, ?_, ?_⟩
          · intro hg htrio
            apply h1
            rw [hfst] at htrio
            simp [hg, htrio]
          · rw [hfst]
            intro hcontra
            exact h3.1 (by rw [hcontra]; rfl)
          · rw [hfst]
            intro hcontra
            exact h3.2 (by rw [hcontra]; rfl)
          · rw [hfst]; exact hsnd
          · rw [hsnd]
            intro hcontra
            exact h4 (by rw [hcontra]; rfl)

theorem mem_mkGameModeObject {raw : RawStats} {includeBots : Bool} {g : String}
    {keyGame : List String} {ckv : String × CompModeObject}
    (h : ckv ∈ mkGameModeObject raw includeBots g keyGame) :
    ckv.2 = mkCompModeObject raw g (keyGame.filter (keyMatchesComp ckv.1)) ∧
    ckv.2 ≠ [] := by
  unfold mkGameModeObject at h
  rcases List.mem_filterMap.1 h with ⟨cm, _, heq⟩
  by_cases h1 : (cm == "bots" && !includeBots) = true
  · rw [if_pos h1] at heq; cases heq
  · rw [if_neg h1] at heq
    simp only [] at heq
    by_cases h2 : ((keyGame.filter (keyMatchesComp cm)).isEmpty) = true
    · rw [if_pos h2] at heq; cases heq
    · rw [if_neg h2] at heq
      by_cases h3 : ((mkCompModeObject raw g
          (keyGame.filter (keyMatchesComp cm))).isEmpty) = true
      · rw [if_pos h3] at heq; cases heq
      · rw [if_neg h3] at heq
        have hskv := Option.some.inj heq
        have hfst : ckv.1 = cm := by rw [← hskv]
        have hsnd : ckv.2 = mkCompModeObject raw g
            (keyGame.filter (keyMatchesComp cm)) := by rw [← hskv]
        rw [hfst]
        refine ⟨hsnd, ?_⟩
        rw [hsnd]
        intro hcontra
        exact h3 (by rw [hcontra]; rfl)

theorem mem_mkBuildModeObject {raw : RawStats} {includeBots : Bool}
    {keyBuild : List String} {gkv : String × GameModeObject}
    (h : gkv ∈ mkBuildModeObject raw includeBots keyBuild) :
    gkv.2 = mkGameModeObject raw includeBots gkv.1
        (keyBuild.filter (keyMatchesGame gkv.1)) ∧
    gkv.2 ≠ [] := by
  unfold mkBuildModeObject at h
  rcases List.mem_filterMap.1 h with ⟨gm, _, heq⟩
  simp only [] at heq
  by_cases h1 : ((keyBuild.filter (keyMatchesGame gm)).isEmpty) = true
  · rw [if_pos h1] at heq; cases heq
  · rw [if_neg h1] at heq
    by_cases h2 : ((mkGameModeObject raw includeBots gm
        (keyBuild.filter (keyMatchesGame gm))).isEmpty) = true
    · rw [if_pos h2] at heq; cases heq
    · rw [if_neg h2] at heq
      have hskv := Option.some.inj heq
      have hfst : gkv.1 = gm := by rw [← hskv]
      have hsnd : gkv.2 = mkGameModeObject raw includeBots gm
          (keyBuild.filter (keyMatchesGame gm)) := by rw [← hskv]
      rw [hfst]
      refine ⟨hsnd, ?_⟩
      rw [hsnd]
      intro hcontra
      exact h2 (by rw [hcontra]; rfl)

theorem mem_createFortniteStatObject {raw : RawStats} {includeBots : Bool}
    {bkv : String × BuildModeObject}
    (h : bkv ∈ createFortniteStatObject raw includeBots) :
    bkv.2 = mkBuildModeObject raw includeBots
        ((raw.map Prod.fst).filter (keyMatchesBuild bkv.1)) ∧
    bkv.2 ≠ [] := by
  unfold createFortniteStatObject at h
  by_cases hk : ((raw.map Prod.fst).isEmpty) = true
  · rw [if_pos hk] at h; cases h
  · rw [if_neg hk] at h
    rcases List.mem_filterMap.1 h with ⟨bm, _, heq⟩
    simp only [] at heq
    by_cases h1 : (((raw.map Prod.fst).filter (keyMatchesBuild bm)).isEmpty)
        = true
    · rw [if_pos h1] at heq; cases heq
    · rw [if_neg h1] at heq
      by_cases h2 : ((mkBuildModeObject raw includeBots
          ((raw.map Prod.fst).filter (keyMatchesBuild bm))).isEmpty) = true
      · rw [if_pos h2] at heq; cases heq
      · rw [if_neg h2] at heq
        have hskv := Option.some.inj heq
        have hfst : bkv.1 = bm := by rw [← hskv]
        have hsnd : bkv.2 = mkBuildModeObject raw includeBots
            ((raw.map Prod.fst).filter (keyMatchesBuild bm)) := by rw [← hskv]
        rw [hfst]
        refine ⟨hsnd, ?_⟩
        rw [hsnd]
        intro hcontra
        exact h2 (by rw [hcontra]; rfl)

/-- C2: a team-size bucket exists in the structured tree only when its
quadruple owns at least one `matches`-pattern key with a nonzero summed value,
and every build-mode, game-mode and comp-mode node of the tree has at least one
child. -/
theorem createFortniteStatObject_gating :
    (∀ (raw : RawStats) (includeBots : Bool) (b g c s : String)
        (tso : TeamSizeObject),
      treeLookup (createFortniteStatObject raw includeBots) b g c s =
          some tso →
      matchesOf raw b g c s ≠ [] ∧
      sumStats raw (matchesOf raw b g c s) ≠ 0) ∧
    (∀ (raw : RawStats) (includeBots : Bool),
      ∀ bkv ∈ createFortniteStatObject raw includeBots, bkv.2 ≠ [] ∧
        ∀ gkv ∈ bkv.2, gkv.2 ≠ [] ∧ ∀ ckv ∈ gkv.2, ckv.2 ≠ []) := by
  constructor
  · intro raw includeBots b g c s tso h
    unfold treeLookup at h
    cases hb : (createFortniteStatObject raw includeBots).lookup b with
    | none => rw [hb] at h; cases h
    | some bo =>
      rw [hb] at h
      cases hg : bo.lookup g with
      | none =>
        rw [show (some bo).bind (fun bo => bo.lookup g) = bo.lookup g from rfl,
          hg] at h
        cases h
      | some go =>
        rw [show (some bo).bind (fun bo => bo.lookup g) = bo.lookup g from rfl,
          hg] at h
        cases hc : go.lookup c with
        | none =>
          rw [show (some go).bind (fun go => go.lookup c) = go.lookup c
            from rfl, hc] at h
          cases h
        | some co =>
          rw [show (some go).bind (fun go => go.lookup c) = go.lookup c
            from rfl, hc] at h
          rw [show (some co).bind (fun co => co.lookup s) = co.lookup s
            from rfl] at h
          have hbo := mem_createFortniteStatObject (lookup_some_mem hb)
          have hbo1 : bo = mkBuildModeObject raw includeBots
              ((raw.map Prod.fst).filter (keyMatchesBuild b)) := hbo.1
          have hgo := mem_mkBuildModeObject (hbo1 ▸ lookup_some_mem hg)
          have hgo1 : go = mkGameModeObject raw includeBots g
              (((raw.map Prod.fst).filter (keyMatchesBuild b)).filter
                (keyMatchesGame g)) := hgo.1
          have hco := mem_mkGameModeObject (hgo1 ▸ lookup_some_mem hc)
          have hco1 : co = mkCompModeObject raw g
              ((((raw.map Prod.fst).filter (keyMatchesBuild b)).filter
                (keyMatchesGame g)).filter (keyMatchesComp c)) := hco.1
          have hso := mem_mkCompModeObject (hco1 ▸ lookup_some_mem h)
          exact ⟨hso.2.1, hso.2.2.1⟩
  · intro raw includeBots bkv hbkv
    have hbo := mem_createFortniteStatObject hbkv
    have hbo1 : bkv.2 = mkBuildModeObject raw includeBots
        ((raw.map Prod.fst).filter (keyMatchesBuild bkv.1)) := hbo.1
    refine ⟨hbo.2, ?_⟩
    intro gkv hgkv
    have hgo := mem_mkBuildModeObject (hbo1 ▸ hgkv)
    have hgo1 : gkv.2 = mkGameModeObject raw includeBots gkv.1
        (((raw.map Prod.fst).filter (keyMatchesBuild bkv.1)).filter
          (keyMatchesGame gkv.1)) := hgo.1
    refine ⟨hgo.2, ?_⟩
    intro ckv hckv
    have hco := mem_mkGameModeObject (hgo1 ▸ hckv)
    exact hco.2

/-- Raw stats realising the spec's end-to-end scenario (test 9): four
zero-build regular-BR solo keys. -/
def exampleRawSolo : RawStats :=
  [("br_matchesplayed_keyboardmouse_m0_playlist_nobuildbr_solo", 10),
   ("br_placetop1_keyboardmouse_m0_playlist_nobuildbr_solo", 2),
   ("br_kills_keyboardmouse_m0_playlist_nobuildbr_solo", 16),
   ("br_minutesplayed_keyboardmouse_m0_playlist_nobuildbr_solo", 40)]

theorem createFortniteStatObject_gating_witness :
    (matchesOf exampleRawSolo "zeroBuild" "regular" "pubs" "solo" ≠ [] ∧
     sumStats exampleRawSolo
        (matchesOf exampleRawSolo "zeroBuild" "regular" "pubs" "solo") ≠ 0) ∧
    ([("regular", [("pubs", [("solo",
        [("matches", 10), ("kills", 16), ("wins", 2), ("minutes", 40)])])])] :
      BuildModeObject) ≠ [] := by
  constructor
  · exact createFortniteStatObject_gating.1 exampleRawSolo false
      "zeroBuild" "regular" "pubs" "solo"
      [("matches", 10), ("kills", 16), ("wins", 2), ("minutes", 40)] (by rfl)
  · have htree : createFortniteStatObject exampleRawSolo false =
        [("zeroBuild", [("regular", [("pubs", [("solo",
          [("matches", 10), ("kills", 16), ("wins", 2), ("minutes", 40)])])])])]
        := rfl
    exact (createFortniteStatObject_gating.2 exampleRawSolo false
      ("zeroBuild", [("regular", [("pubs", [("solo",
        [("matches", 10), ("kills", 16), ("wins", 2), ("minutes", 40)])])])])
      (htree ▸ List.mem_singleton.2 rfl)).1

/-- C8: no `reload` game-mode node of any structured tree ever owns a `trio`
team-size bucket. -/
theorem createFortniteStatObject_reload_no_trio
    (raw : RawStats) (includeBots : Bool) (b c : String) (co : CompModeObject)
    (h : (((createFortniteStatObject raw includeBots).lookup b).bind
        (fun bo => bo.lookup "reload")).bind (fun go => go.lookup c) =
      some co) :
    co.lookup "trio" = none := by
  cases hb : (createFortniteStatObject raw includeBots).lookup b with
  | none => rw [hb] at h; cases h
  | some bo =>
    rw [hb] at h
    cases hg : bo.lookup "reload" with
    | none =>
      rw [show (some bo).bind (fun bo => bo.lookup "reload") =
        bo.lookup "reload" from rfl, hg] at h
      cases h
    | some go =>
      rw [show (some bo).bind (fun bo => bo.lookup "reload") =
        bo.lookup "reload" from rfl, hg] at h
      rw [show (some go).bind (fun go => go.lookup c) = go.lookup c
        from rfl] at h
      have hbo := mem_createFortniteStatObject (lookup_some_mem hb)
      have hbo1 : bo = mkBuildModeObject raw includeBots
          ((raw.map Prod.fst).filter (keyMatchesBuild b)) := hbo.1
      have hgo := mem_mkBuildModeObject (hbo1 ▸ lookup_some_mem hg)
      have hgo1 : go = mkGameModeObject raw includeBots "reload"
          (((raw.map Prod.fst).filter (keyMatchesBuild b)).filter
            (keyMatchesGame "reload")) := hgo.1
      have hco := mem_mkGameModeObject (hgo1 ▸ lookup_some_mem h)
      have hco1 : co = mkCompModeObject raw "reload"
          ((((raw.map Prod.fst).filter (keyMatchesBuild b)).filter
            (keyMatchesGame "reload")).filter (keyMatchesComp c)) := hco.1
      apply lookup_none_of_not_key
      intro hmem
      rcases List.mem_map.1 hmem with ⟨skv, hskv, hfst⟩
      have := mem_mkCompModeObject (hco1 ▸ hskv)
      exact this.1 rfl hfst

/-- Reload-mode raw stats (including a key carrying the `trio` marker) for the
C8 witness. -/
def exampleRawReload : RawStats :=
  [("br_matchesplayed_gamepad_nobuild_punchberry_solo", 5),
   ("br_matchesplayed_gamepad_nobuild_punchberry_trio", 7)]

theorem createFortniteStatObject_reload_no_trio_witness :
    (([("solo", [("matches", 5)])] : CompModeObject).lookup "trio" = none) := by
  exact createFortniteStatObject_reload_no_trio exampleRawReload false
    "zeroBuild" "pubs" [("solo", [("matches", 5)])] (by rfl)

/-! ### Claim C3: rate annotation at leaves -/

theorem lookup_append_none {β : Type} (l1 l2 : List (String × β)) (k : String)
    (h : l1.lookup k = none) : (l1 ++ l2).lookup k = l2.lookup k := by
  induction l1 with
  | nil => rfl
  | cons kv rest ih =>
    rw [List.lookup] at h
    rw [List.cons_append, List.lookup]
    cases hbeq : (k == kv.1) with
    | true => rw [hbeq] at h; cases h
    | false =>
      rw [hbeq] at h
      exact ih h

theorem lookup_none_of_any_false {β : Type} (kvs : List (String × β))
    (k : String) (h : kvs.any (fun kv => kv.1 == k) = false) :
    kvs.lookup k = none := by
  induction kvs with
  | nil => rfl
  | cons kv rest ih =>
    simp only [List.any_cons, Bool.or_eq_false_iff] at h
    rw [List.lookup]
    have : (k == kv.1) = false := by
      cases hbeq : (k == kv.1) with
      | false => rfl
      | true =>
        have := eq_of_beq hbeq
        rw [this] at h
        simp at h
    rw [this]
    exact ih h.2

theorem jsSet_lookup_self (kvs : List (String × JTree)) (k : String)
    (v : JTree) : (jsSet kvs k v).lookup k = some v := by
  unfold jsSet
  by_cases hany : (kvs.any (fun kv => kv.1 == k)) = true
  · rw [if_pos hany]
    induction kvs with
    | nil => simp at hany
    | cons kv rest ih =>
      simp only [List.any_cons, Bool.or_eq_true] at hany
      by_cases hk : (kv.1 == k) = true
      · simp only [List.map_cons, hk, if_true]
        rw [List.lookup]
        simp
      · simp only [List.map_cons, hk]
        simp only [Bool.false_eq_true, if_false]
        rw [List.lookup]
        have hne : (k == kv.1) = false := by
          cases hbeq : (k == kv.1) with
          | false => rfl
          | true => exact absurd (by rw [eq_of_beq hbeq]; exact beq_self_eq_true _) hk
        rw [hne]
        rcases hany with h | h
        · exact absurd h hk
        · exact ih h
  · rw [if_neg hany]
    have hany2 : (kvs.any (fun kv => kv.1 == k)) = false := by
      cases hval : (kvs.any (fun kv => kv.1 == k)) with
      | false => rfl
      | true => exact absurd hval hany
    rw [lookup_append_none _ _ _ (lookup_none_of_any_false kvs k hany2)]
    rw [List.lookup]
    simp

theorem jsSet_lookup_ne (kvs : List (String × JTree)) (k : String) (v : JTree)
    (x : String) (h : x ≠ k) : (jsSet kvs k v).lookup x = kvs.lookup x := by
  unfold jsSet
  by_cases hany : (kvs.any (fun kv => kv.1 == k)) = true
  · rw [if_pos hany]
    clear hany
    induction kvs with
    | nil => rfl
    | cons kv rest ih =>
      simp only [List.map_cons]
      by_cases hk : (kv.1 == k) = true
      · simp only [hk, if_true]
        rw [List.lookup, List.lookup]
        have h1 : (x == k) = false := by simp [h]
        have h2 : (x == kv.1) = false := by
          rw [eq_of_beq hk]
          simp [h]
        rw [h1, h2]
        exact ih
      · simp only [hk]
        simp only [Bool.false_eq_true, if_false]
        rw [List.lookup, List.lookup]
        cases hbeq : (x == kv.1) with
        | true => rfl
        | false => exact ih
  · rw [if_neg hany]
    induction kvs with
    | nil =>
      simp only [List.nil_append]
      rw [List.lookup, List.lookup]
      have : (x == k) = false := by simp [h]
      rw [this]
      rfl
    | cons kv rest ih =>
      rw [List.cons_append, List.lookup, List.lookup]
      cases hbeq : (x == kv.1) with
      | true => rfl
      | false =>
        apply ih
        intro hcontra
        apply hany
        simp only [List.any_cons, Bool.or_eq_true]
        right
        exact hcontra

theorem hasField_jsSet_ne (kvs : List (String × JTree)) (k : String)
    (v : JTree) (x : String) (h : x ≠ k) :
    hasField (jsSet kvs k v) x = hasField kvs x := by
  unfold hasField jsSet
  by_cases hany : (kvs.any (fun kv => kv.1 == k)) = true
  · rw [if_pos hany]
    clear hany
    induction kvs with
    | nil => rfl
    | cons kv rest ih =>
      simp only [List.map_cons, List.any_cons]
      by_cases hk : (kv.1 == k) = true
      · simp only [hk, if_true]
        have h1 : (k == x) = false := by simp [Ne.symm h]
        have h2 : (kv.1 == x) = false := by
          rw [eq_of_beq hk]
          simp [Ne.symm h]
        rw [h1, h2, ih]
      · simp only [hk]
        simp only [Bool.false_eq_true, if_false, List.any_cons]
        rw [ih]
  · rw [if_neg hany]
    rw [List.any_append]
    simp only [List.any_cons, List.any_nil, Bool.or_false]
    have : (k == x) = false := by simp [Ne.symm h]
    rw [this]
    simp

theorem fieldNum_jsSet_self_num (kvs : List (String × JTree)) (k : String)
    (x : JSNum) : fieldNum (jsSet kvs k (.num x)) k = x := by
  unfold fieldNum
  rw [jsSet_lookup_self]
  rfl

theorem fieldNum_jsSet_ne (kvs : List (String × JTree)) (k : String)
    (v : JTree) (x : String) (h : x ≠ k) :
    fieldNum (jsSet kvs k v) x = fieldNum kvs x := by
  unfold fieldNum
  rw [jsSet_lookup_ne _ _ _ _ h]

theorem fieldNum_addTopRate_ne (kvs : List (String × JTree))
    (t r x : String) (h : x ≠ r) :
    fieldNum (addTopRate kvs t r) x = fieldNum kvs x := by
  unfold addTopRate
  by_cases ht : hasField kvs t
  · rw [if_pos ht, fieldNum_jsSet_ne _ _ _ _ h]
  · rw [if_neg ht]

theorem hasField_addTopRate_ne (kvs : List (String × JTree))
    (t r x : String) (h : x ≠ r) :
    hasField (addTopRate kvs t r) x = hasField kvs x := by
  unfold addTopRate
  by_cases ht : hasField kvs t
  · rw [if_pos ht, hasField_jsSet_ne _ _ _ _ h]
  · rw [if_neg ht]

theorem fieldNum_addTopRate_self (kvs : List (String × JTree))
    (t r : String) (h : hasField kvs t = true) :
    fieldNum (addTopRate kvs t r) r =
      jsDiv (fieldNum kvs t) (fieldNum kvs "matches") := by
  unfold addTopRate
  rw [if_pos h, fieldNum_jsSet_self_num]

/-- The value `statSummary.wins` reads after the default insertion:
the original wins value, or 0 when the field was absent. -/
def winsDefault (kvs : List (String × JTree)) : JSNum :=
  if hasField kvs "wins" then fieldNum kvs "wins" else .fin 0

/-- As `winsDefault`, for kills. -/
def killsDefault (kvs : List (String × JTree)) : JSNum :=
  if hasField kvs "kills" then fieldNum kvs "kills" else .fin 0

theorem withDefaults_wins (kvs : List (String × JTree)) :
    fieldNum (withDefaults kvs) "wins" = winsDefault kvs := by
  unfold withDefaults winsDefault
  simp only []
  by_cases h1 : hasField kvs "wins"
  · rw [if_pos h1, if_pos h1]
    by_cases h2 : hasField kvs "kills"
    · rw [if_pos h2]
    · rw [if_neg h2, fieldNum_jsSet_ne _ _ _ _ (by decide)]
  · rw [if_neg h1, if_neg h1]
    by_cases h2 : hasField (jsSet kvs "wins" (.num (.fin 0))) "kills"
    · rw [if_pos h2, fieldNum_jsSet_self_num]
    · rw [if_neg h2, fieldNum_jsSet_ne _ _ _ _ (by decide),
        fieldNum_jsSet_self_num]

theorem withDefaults_kills (kvs : List (String × JTree)) :
    fieldNum (withDefaults kvs) "kills" = killsDefault kvs := by
  unfold withDefaults killsDefault
  simp only []
  by_cases h1 : hasField kvs "wins"
  · rw [if_pos h1]
    by_cases h2 : hasField kvs "kills"
    · rw [if_pos h2, if_pos h2]
    · rw [if_neg h2, if_neg h2, fieldNum_jsSet_self_num]
  · rw [if_neg h1]
    rw [hasField_jsSet_ne _ _ _ _ (by decide)]
    by_cases h2 : hasField kvs "kills"
    · rw [if_pos h2, if_pos h2, fieldNum_jsSet_ne _ _ _ _ (by decide)]
    · rw [if_neg h2, if_neg h2, fieldNum_jsSet_self_num]

theorem withDefaults_fieldNum_ne (kvs : List (String × JTree)) (x : String)
    (h1 : x ≠ "wins") (h2 : x ≠ "kills") :
    fieldNum (withDefaults kvs) x = fieldNum kvs x := by
  unfold withDefaults
  simp only []
  by_cases hw : hasField kvs "wins"
  · rw [if_pos hw]
    by_cases hk : hasField kvs "kills"
    · rw [if_pos hk]
    · rw [if_neg hk, fieldNum_jsSet_ne _ _ _ _ h2]
  · rw [if_neg hw]
    rw [hasField_jsSet_ne _ _ _ _ (by decide)]
    by_cases hk : hasField kvs "kills"
    · rw [if_pos hk, fieldNum_jsSet_ne _ _ _ _ h1]
    · rw [if_neg hk, fieldNum_jsSet_ne _ _ _ _ h2,
        fieldNum_jsSet_ne _ _ _ _ h1]

theorem withDefaults_hasField_ne (kvs : List (String × JTree)) (x : String)
    (h1 : x ≠ "wins") (h2 : x ≠ "kills") :
    hasField (withDefaults kvs) x = hasField kvs x := by
  unfold withDefaults
  simp only []
  by_cases hw : hasField kvs "wins"
  · rw [if_pos hw]
    by_cases hk : hasField kvs "kills"
    · rw [if_pos hk]
    · rw [if_neg hk, hasField_jsSet_ne _ _ _ _ h2]
  · rw [if_neg hw]
    rw [hasField_jsSet_ne _ _ _ _ (by decide)]
    by_cases hk : hasField kvs "kills"
    · rw [if_pos hk, hasField_jsSet_ne _ _ _ _ h1]
    · rw [if_neg hk, hasField_jsSet_ne _ _ _ _ h2,
        hasField_jsSet_ne _ _ _ _ h1]

theorem withWinRate_self (kvs : List (String × JTree)) :
    fieldNum (withWinRate kvs) "winRate" =
      jsDiv (fieldNum kvs "wins") (fieldNum kvs "matches") := by
  unfold withWinRate
  rw [fieldNum_jsSet_self_num]

theorem withWinRate_fieldNum_ne (kvs : List (String × JTree)) (x : String)
    (h : x ≠ "winRate") : fieldNum (withWinRate kvs) x = fieldNum kvs x := by
  unfold withWinRate
  rw [fieldNum_jsSet_ne _ _ _ _ h]

theorem withWinRate_hasField_ne (kvs : List (String × JTree)) (x : String)
    (h : x ≠ "winRate") : hasField (withWinRate kvs) x = hasField kvs x := by
  unfold withWinRate
  rw [hasField_jsSet_ne _ _ _ _ h]

theorem withTopRates_fieldNum_ne (kvs : List (String × JTree)) (x : String)
    (h3 : x ≠ "top3Rate") (h5 : x ≠ "top5Rate") (h6 : x ≠ "top6Rate")
    (h10 : x ≠ "top10Rate") (h12 : x ≠ "top12Rate") (h25 : x ≠ "top25Rate") :
    fieldNum (withTopRates kvs) x = fieldNum kvs x := by
  unfold withTopRates
  rw [fieldNum_addTopRate_ne _ _ _ _ h25, fieldNum_addTopRate_ne _ _ _ _ h12,
    fieldNum_addTopRate_ne _ _ _ _ h10, fieldNum_addTopRate_ne _ _ _ _ h6,
    fieldNum_addTopRate_ne _ _ _ _ h5, fieldNum_addTopRate_ne _ _ _ _ h3]

theorem withTopRates_hasField_ne (kvs : List (String × JTree)) (x : String)
    (h3 : x ≠ "top3Rate") (h5 : x ≠ "top5Rate") (h6 : x ≠ "top6Rate")
    (h10 : x ≠ "top10Rate") (h12 : x ≠ "top12Rate") (h25 : x ≠ "top25Rate") :
    hasField (withTopRates kvs) x = hasField kvs x := by
  unfold withTopRates
  rw [hasField_addTopRate_ne _ _ _ _ h25, hasField_addTopRate_ne _ _ _ _ h12,
    hasField_addTopRate_ne _ _ _ _ h10, hasField_addTopRate_ne _ _ _ _ h6,
    hasField_addTopRate_ne _ _ _ _ h5, hasField_addTopRate_ne _ _ _ _ h3]

theorem withTopRates_top3 (kvs : List (String × JTree))
    (h : hasField kvs "top3" = true) :
    fieldNum (withTopRates kvs) "top3Rate" =
      jsDiv (fieldNum kvs "top3") (fieldNum kvs "matches") := by
  unfold withTopRates
  rw [fieldNum_addTopRate_ne _ _ _ _ (by decide),
    fieldNum_addTopRate_ne _ _ _ _ (by decide),
    fieldNum_addTopRate_ne _ _ _ _ (by decide),
    fieldNum_addTopRate_ne _ _ _ _ (by decide),
    fieldNum_addTopRate_ne _ _ _ _ (by decide),
    fieldNum_addTopRate_self _ _ _ h]

theorem withTopRates_top5 (kvs : List (String × JTree))
    (h : hasField kvs "top5" = true) :
    fieldNum (withTopRates kvs) "top5Rate" =
      jsDiv (fieldNum kvs "top5") (fieldNum kvs "matches") := by
  unfold withTopRates
  rw [fieldNum_addTopRate_ne _ _ _ _ (by decide),
    fieldNum_addTopRate_ne _ _ _ _ (by decide),
    fieldNum_addTopRate_ne _ _ _ _ (by decide),
    fieldNum_addTopRate_ne _ _ _ _ (by decide),
    fieldNum_addTopRate_self _ _ _
      (by rw [hasField_addTopRate_ne _ _ _ _ (by decide)]; exact h),
    fieldNum_addTopRate_ne _ _ _ _ (by decide),
    fieldNum_addTopRate_ne _ _ _ _ (by decide)]

theorem withTopRates_top6 (kvs : List (String × JTree))
    (h : hasField kvs "top6" = true) :
    fieldNum (withTopRates kvs) "top6Rate" =
      jsDiv (fieldNum kvs "top6") (fieldNum kvs "matches") := by
  unfold withTopRates
  rw [fieldNum_addTopRate_ne _ _ _ _ (by decide),
    fieldNum_addTopRate_ne _ _ _ _ (by decide),
    fieldNum_addTopRate_ne _ _ _ _ (by decide),
    fieldNum_addTopRate_self _ _ _
      (by rw [hasField_addTopRate_ne _ _ _ _ (by decide),
        hasField_addTopRate_ne _ _ _ _ (by decide)]; exact h),
    fieldNum_addTopRate_ne _ _ _ _ (by decide),
    fieldNum_addTopRate_ne _ _ _ _ (by decide),
    fieldNum_addTopRate_ne _ _ _ _ (by decide),
    fieldNum_addTopRate_ne _ _ _ _ (by decide)]

theorem withTopRates_top10 (kvs : List (String × JTree))
    (h : hasField kvs "top10" = true) :
    fieldNum (withTopRates kvs) "top10Rate" =
      jsDiv (fieldNum kvs "top10") (fieldNum kvs "matches") := by
  unfold withTopRates
  rw [fieldNum_addTopRate_ne _ _ _ _ (by decide),
    fieldNum_addTopRate_ne _ _ _ _ (by decide),
    fieldNum_addTopRate_self _ _ _
      (by rw [hasField_addTopRate_ne _ _ _ _ (by decide),
        hasField_addTopRate_ne _ _ _ _ (by decide),
        hasField_addTopRate_ne _ _ _ _ (by decide)]; exact h),
    fieldNum_addTopRate_ne _ _ _ _ (by decide),
    fieldNum_addTopRate_ne _ _ _ _ (by decide),
    fieldNum_addTopRate_ne _ _ _ _ (by decide),
    fieldNum_addTopRate_ne _ _ _ _ (by decide),
    fieldNum_addTopRate_ne _ _ _ _ (by decide),
    fieldNum_addTopRate_ne _ _ _ _ (by decide)]

theorem withTopRates_top12 (kvs : List (String × JTree))
    (h : hasField kvs "top12" = true) :
    fieldNum (withTopRates kvs) "top12Rate" =
      jsDiv (fieldNum kvs "top12") (fieldNum kvs "matches") := by
  unfold withTopRates
  rw [fieldNum_addTopRate_ne _ _ _ _ (by decide),
    fieldNum_addTopRate_self _ _ _
      (by rw [hasField_addTopRate_ne _ _ _ _ (by decide),
        hasField_addTopRate_ne _ _ _ _ (by decide),
        hasField_addTopRate_ne _ _ _ _ (by decide),
        hasField_addTopRate_ne _ _ _ _ (by decide)]; exact h),
    fieldNum_addTopRate_ne _ _ _ _ (by decide),
    fieldNum_addTopRate_ne _ _ _ _ (by decide),
    fieldNum_addTopRate_ne _ _ _ _ (by decide),
    fieldNum_addTopRate_ne _ _ _ _ (by decide),
    fieldNum_addTopRate_ne _ _ _ _ (by decide),
    fieldNum_addTopRate_ne _ _ _ _ (by decide),
    fieldNum_addTopRate_ne _ _ _ _ (by decide),
    fieldNum_addTopRate_ne _ _ _ _ (by decide)]

theorem withTopRates_top25 (kvs : List (String × JTree))
    (h : hasField kvs "top25" = true) :
    fieldNum (withTopRates kvs) "top25Rate" =
      jsDiv (fieldNum kvs "top25") (fieldNum kvs "matches") := by
  unfold withTopRates
  rw [fieldNum_addTopRate_self _ _ _
      (by rw [hasField_addTopRate_ne _ _ _ _ (by decide),
        hasField_addTopRate_ne _ _ _ _ (by decide),
        hasField_addTopRate_ne _ _ _ _ (by decide),
        hasField_addTopRate_ne _ _ _ _ (by decide),
        hasField_addTopRate_ne _ _ _ _ (by decide)]; exact h),
    fieldNum_addTopRate_ne _ _ _ _ (by decide),
    fieldNum_addTopRate_ne _ _ _ _ (by decide),
    fieldNum_addTopRate_ne _ _ _ _ (by decide),
    fieldNum_addTopRate_ne _ _ _ _ (by decide),
    fieldNum_addTopRate_ne _ _ _ _ (by decide),
    fieldNum_addTopRate_ne _ _ _ _ (by decide),
    fieldNum_addTopRate_ne _ _ _ _ (by decide),
    fieldNum_addTopRate_ne _ _ _ _ (by decide),
    fieldNum_addTopRate_ne _ _ _ _ (by decide),
    fieldNum_addTopRate_ne _ _ _ _ (by decide)]

theorem withCombatRates_kpd (kvs : List (String × JTree)) :
    fieldNum (withCombatRates kvs) "killsPerDeath" =
      jsDiv (fieldNum kvs "kills")
        (jsSub (fieldNum kvs "matches") (fieldNum kvs "wins")) := by
  unfold withCombatRates
  simp only []
  rw [fieldNum_jsSet_ne _ _ _ _ (by decide),
    fieldNum_jsSet_ne _ _ _ _ (by decide), fieldNum_jsSet_self_num]

theorem withCombatRates_kp20 (kvs : List (String × JTree)) :
    fieldNum (withCombatRates kvs) "killsPer20" =
      jsDiv (jsMul (fieldNum kvs "kills") (.fin 20))
        (fieldNum kvs "minutes") := by
  unfold withCombatRates
  simp only []
  rw [fieldNum_jsSet_ne _ _ _ _ (by decide), fieldNum_jsSet_self_num,
    fieldNum_jsSet_ne _ _ _ _ (by decide),
    fieldNum_jsSet_ne _ _ _ _ (by decide)]

theorem withCombatRates_mpk (kvs : List (String × JTree)) :
    fieldNum (withCombatRates kvs) "minutesPerKill" =
      jsDiv (fieldNum kvs "minutes") (fieldNum kvs "kills") := by
  unfold withCombatRates
  simp only []
  rw [fieldNum_jsSet_self_num,
    fieldNum_jsSet_ne _ _ _ _ (by decide),
    fieldNum_jsSet_ne _ _ _ _ (by decide),
    fieldNum_jsSet_ne _ _ _ _ (by decide),
    fieldNum_jsSet_ne _ _ _ _ (by decide)]

theorem withCombatRates_fieldNum_ne (kvs : List (String × JTree)) (x : String)
    (h1 : x ≠ "killsPerDeath") (h2 : x ≠ "killsPer20")
    (h3 : x ≠ "minutesPerKill") :
    fieldNum (withCombatRates kvs) x = fieldNum kvs x := by
  unfold withCombatRates
  simp only []
  rw [fieldNum_jsSet_ne _ _ _ _ h3, fieldNum_jsSet_ne _ _ _ _ h2,
    fieldNum_jsSet_ne _ _ _ _ h1]

/-- Read a numeric field of an (annotated) leaf object. -/
def leafFieldNum : JTree → String → JSNum
  | .obj kvs, k => fieldNum kvs k
  | .num _, _ => .nan

/-- The spec's concrete example leaf
`{matches: 10, wins: 2, kills: 16, minutes: 40, top5: 4}`. -/
def exampleLeaf : List (String × JTree) :=
  [("matches", .num (.fin 10)), ("wins", .num (.fin 2)),
   ("kills", .num (.fin 16)), ("minutes", .num (.fin 40)),
   ("top5", .num (.fin 4))]

theorem recurseSummary_leaf (kvs : List (String × JTree))
    (h : hasField kvs "matches" = true) :
    addFortniteRateStats (.obj kvs) = .obj (annotateLeaf kvs) := by
  show recurseSummary (.obj kvs) = .obj (annotateLeaf kvs)
  unfold recurseSummary
  rw [if_pos h]

theorem recurseSummary_node (kvs : List (String × JTree))
    (h : hasField kvs "matches" = false) :
    addFortniteRateStats (.obj kvs) = .obj (recurseSummaryFields kvs) := by
  show recurseSummary (.obj kvs) = .obj (recurseSummaryFields kvs)
  unfold recurseSummary
  rw [h]
  simp

theorem annotateLeaf_winRate (kvs : List (String × JTree)) :
    fieldNum (annotateLeaf kvs) "winRate" =
      jsDiv (winsDefault kvs) (fieldNum kvs "matches") := by
  unfold annotateLeaf
  rw [withCombatRates_fieldNum_ne _ _ (by decide) (by decide) (by decide),
    withTopRates_fieldNum_ne _ _ (by decide) (by decide) (by decide)
      (by decide) (by decide) (by decide),
    withWinRate_self, withDefaults_wins,
    withDefaults_fieldNum_ne _ _ (by decide) (by decide)]

theorem annotateLeaf_top3 (kvs : List (String × JTree))
    (h : hasField kvs "top3" = true) :
    fieldNum (annotateLeaf kvs) "top3Rate" =
      jsDiv (fieldNum kvs "top3") (fieldNum kvs "matches") := by
  unfold annotateLeaf
  rw [withCombatRates_fieldNum_ne _ _ (by decide) (by decide) (by decide),
    withTopRates_top3 _
      (by rw [withWinRate_hasField_ne _ _ (by decide),
        withDefaults_hasField_ne _ _ (by decide) (by decide)]; exact h),
    withWinRate_fieldNum_ne _ _ (by decide),
    withDefaults_fieldNum_ne _ _ (by decide) (by decide),
    withWinRate_fieldNum_ne _ _ (by decide),
    withDefaults_fieldNum_ne _ _ (by decide) (by decide)]

theorem annotateLeaf_top5 (kvs : List (String × JTree))
    (h : hasField kvs "top5" = true) :
    fieldNum (annotateLeaf kvs) "top5Rate" =
      jsDiv (fieldNum kvs "top5") (fieldNum kvs "matches") := by
  unfold annotateLeaf
  rw [withCombatRates_fieldNum_ne _ _ (by decide) (by decide) (by decide),
    withTopRates_top5 _
      (by rw [withWinRate_hasField_ne _ _ (by decide),
        withDefaults_hasField_ne _ _ (by decide) (by decide)]; exact h),
    withWinRate_fieldNum_ne _ _ (by decide),
    withDefaults_fieldNum_ne _ _ (by decide) (by decide),
    withWinRate_fieldNum_ne _ _ (by decide),
    withDefaults_fieldNum_ne _ _ (by decide) (by decide)]

theorem annotateLeaf_top6 (kvs : List (String × JTree))
    (h : hasField kvs "top6" = true) :
    fieldNum (annotateLeaf kvs) "top6Rate" =
      jsDiv (fieldNum kvs "top6") (fieldNum kvs "matches") := by
  unfold annotateLeaf
  rw [withCombatRates_fieldNum_ne _ _ (by decide) (by decide) (by decide),
    withTopRates_top6 _
      (by rw [withWinRate_hasField_ne _ _ (by decide),
        withDefaults_hasField_ne _ _ (by decide) (by decide)]; exact h),
    withWinRate_fieldNum_ne _ _ (by decide),
    withDefaults_fieldNum_ne _ _ (by decide) (by decide),
    withWinRate_fieldNum_ne _ _ (by decide),
    withDefaults_fieldNum_ne _ _ (by decide) (by decide)]

theorem annotateLeaf_top10 (kvs : List (String × JTree))
    (h : hasField kvs "top10" = true) :
    fieldNum (annotateLeaf kvs) "top10Rate" =
      jsDiv (fieldNum kvs "top10") (fieldNum kvs "matches") := by
  unfold annotateLeaf
  rw [withCombatRates_fieldNum_ne _ _ (by decide) (by decide) (by decide),
    withTopRates_top10 _
      (by rw [withWinRate_hasField_ne _ _ (by decide),
        withDefaults_hasField_ne _ _ (by decide) (by decide)]; exact h),
    withWinRate_fieldNum_ne _ _ (by decide),
    withDefaults_fieldNum_ne _ _ (by decide) (by decide),
    withWinRate_fieldNum_ne _ _ (by decide),
    withDefaults_fieldNum_ne _ _ (by decide) (by decide)]

theorem annotateLeaf_top12 (kvs : List (String × JTree))
    (h : hasField kvs "top12" = true) :
    fieldNum (annotateLeaf kvs) "top12Rate" =
      jsDiv (fieldNum kvs "top12") (fieldNum kvs "matches") := by
  unfold annotateLeaf
  rw [withCombatRates_fieldNum_ne _ _ (by decide) (by decide) (by decide),
    withTopRates_top12 _
      (by rw [withWinRate_hasField_ne _ _ (by decide),
        withDefaults_hasField_ne _ _ (by decide) (by decide)]; exact h),
    withWinRate_fieldNum_ne _ _ (by decide),
    withDefaults_fieldNum_ne _ _ (by decide) (by decide),
    withWinRate_fieldNum_ne _ _ (by decide),
    withDefaults_fieldNum_ne _ _ (by decide) (by decide)]

theorem annotateLeaf_top25 (kvs : List (String × JTree))
    (h : hasField kvs "top25" = true) :
    fieldNum (annotateLeaf kvs) "top25Rate" =
      jsDiv (fieldNum kvs "top25") (fieldNum kvs "matches") := by
  unfold annotateLeaf
  rw [withCombatRates_fieldNum_ne _ _ (by decide) (by decide) (by decide),
    withTopRates_top25 _
      (by rw [withWinRate_hasField_ne _ _ (by decide),
        withDefaults_hasField_ne _ _ (by decide) (by decide)]; exact h),
    withWinRate_fieldNum_ne _ _ (by decide),
    withDefaults_fieldNum_ne _ _ (by decide) (by decide),
    withWinRate_fieldNum_ne _ _ (by decide),
    withDefaults_fieldNum_ne _ _ (by decide) (by decide)]

theorem annotateLeaf_kpd (kvs : List (String × JTree)) :
    fieldNum (annotateLeaf kvs) "killsPerDeath" =
      jsDiv (killsDefault kvs)
        (jsSub (fieldNum kvs "matches") (winsDefault kvs)) := by
  unfold annotateLeaf
  rw [withCombatRates_kpd,
    withTopRates_fieldNum_ne _ _ (by decide) (by decide) (by decide)
      (by decide) (by decide) (by decide),
    withWinRate_fieldNum_ne _ _ (by decide), withDefaults_kills,
    withTopRates_fieldNum_ne _ _ (by decide) (by decide) (by decide)
      (by decide) (by decide) (by decide),
    withWinRate_fieldNum_ne _ _ (by decide),
    withDefaults_fieldNum_ne _ _ (by decide) (by decide),
    withTopRates_fieldNum_ne _ _ (by decide) (by decide) (by decide)
      (by decide) (by decide) (by decide),
    withWinRate_fieldNum_ne _ _ (by decide), withDefaults_wins]

theorem annotateLeaf_kp20 (kvs : List (String × JTree)) :
    fieldNum (annotateLeaf kvs) "killsPer20" =
      jsDiv (jsMul (killsDefault kvs) (.fin 20)) (fieldNum kvs "minutes") := by
  unfold annotateLeaf
  rw [withCombatRates_kp20,
    withTopRates_fieldNum_ne _ _ (by decide) (by decide) (by decide)
      (by decide) (by decide) (by decide),
    withWinRate_fieldNum_ne _ _ (by decide), withDefaults_kills,
    withTopRates_fieldNum_ne _ _ (by decide) (by decide) (by decide)
      (by decide) (by decide) (by decide),
    withWinRate_fieldNum_ne _ _ (by decide),
    withDefaults_fieldNum_ne _ _ (by decide) (by decide)]

theorem annotateLeaf_mpk (kvs : List (String × JTree)) :
    fieldNum (annotateLeaf kvs) "minutesPerKill" =
      jsDiv (fieldNum kvs "minutes") (killsDefault kvs) := by
  unfold annotateLeaf
  rw [withCombatRates_mpk,
    withTopRates_fieldNum_ne _ _ (by decide) (by decide) (by decide)
      (by decide) (by decide) (by decide),
    withWinRate_fieldNum_ne _ _ (by decide),
    withDefaults_fieldNum_ne _ _ (by decide) (by decide),
    withTopRates_fieldNum_ne _ _ (by decide) (by decide) (by decide)
      (by decide) (by decide) (by decide),
    withWinRate_fieldNum_ne _ _ (by decide), withDefaults_kills]

/-- C3: at every leaf (a node owning `matches`) `addFortniteRateStats` sets
winRate = wins/matches (wins and kills defaulting to 0 when absent),
topNRate = topN/matches for each placement stat present,
killsPerDeath = kills/(matches − wins) — `Infinity` when matches = wins with
positive kills, not an exception — killsPer20 = kills·20/minutes and
minutesPerKill = minutes/kills; the spec's concrete leaf
{matches 10, wins 2, kills 16, minutes 40, top5 4} yields winRate 0.2,
top5Rate 0.4, killsPerDeath 2, killsPer20 8, minutesPerKill 2.5. -/
theorem addFortniteRateStats_leaf_rates :
    (∀ kvs, hasField kvs "matches" = true →
      addFortniteRateStats (.obj kvs) = .obj (annotateLeaf kvs)) ∧
    (∀ kvs, fieldNum (annotateLeaf kvs) "winRate" =
      jsDiv (winsDefault kvs) (fieldNum kvs "matches")) ∧
    (∀ kvs, hasField kvs "top3" = true →
      fieldNum (annotateLeaf kvs) "top3Rate" =
        jsDiv (fieldNum kvs "top3") (fieldNum kvs "matches")) ∧
    (∀ kvs, hasField kvs "top5" = true →
      fieldNum (annotateLeaf kvs) "top5Rate" =
        jsDiv (fieldNum kvs "top5") (fieldNum kvs "matches")) ∧
    (∀ kvs, hasField kvs "top6" = true →
      fieldNum (annotateLeaf kvs) "top6Rate" =
        jsDiv (fieldNum kvs "top6") (fieldNum kvs "matches")) ∧
    (∀ kvs, hasField kvs "top10" = true →
      fieldNum (annotateLeaf kvs) "top10Rate" =
        jsDiv (fieldNum kvs "top10") (fieldNum kvs "matches")) ∧
    (∀ kvs, hasField kvs "top12" = true →
      fieldNum (annotateLeaf kvs) "top12Rate" =
        jsDiv (fieldNum kvs "top12") (fieldNum kvs "matches")) ∧
    (∀ kvs, hasField kvs "top25" = true →
      fieldNum (annotateLeaf kvs) "top25Rate" =
        jsDiv (fieldNum kvs "top25") (fieldNum kvs "matches")) ∧
    (∀ kvs, fieldNum (annotateLeaf kvs) "killsPerDeath" =
      jsDiv (killsDefault kvs)
        (jsSub (fieldNum kvs "matches") (winsDefault kvs))) ∧
    (∀ kvs (q p : ℚ), fieldNum kvs "matches" = .fin q →
      winsDefault kvs = .fin q → killsDefault kvs = .fin p → 0 < p →
      fieldNum (annotateLeaf kvs) "killsPerDeath" = .posinf) ∧
    (∀ kvs, fieldNum (annotateLeaf kvs) "killsPer20" =
      jsDiv (jsMul (killsDefault kvs) (.fin 20)) (fieldNum kvs "minutes")) ∧
    (∀ kvs, fieldNum (annotateLeaf kvs) "minutesPerKill" =
      jsDiv (fieldNum kvs "minutes") (killsDefault kvs)) ∧
    (leafFieldNum (addFortniteRateStats (.obj exampleLeaf)) "winRate" =
        .fin (1/5) ∧
      leafFieldNum (addFortniteRateStats (.obj exampleLeaf)) "top5Rate" =
        .fin (2/5) ∧
      leafFieldNum (addFortniteRateStats (.obj exampleLeaf)) "killsPerDeath" =
        .fin 2 ∧
      leafFieldNum (addFortniteRateStats (.obj exampleLeaf)) "killsPer20" =
        .fin 8 ∧
      leafFieldNum (addFortniteRateStats (.obj exampleLeaf)) "minutesPerKill" =
        .fin (5/2)) := by
  have hconc : addFortniteRateStats (.obj exampleLeaf) =
      .obj (annotateLeaf exampleLeaf) := recurseSummary_leaf _ (by rfl)
  refine ⟨recurseSummary_leaf, annotateLeaf_winRate, annotateLeaf_top3,
    annotateLeaf_top5, annotateLeaf_top6, annotateLeaf_top10,
    annotateLeaf_top12, annotateLeaf_top25, annotateLeaf_kpd, ?_,
    annotateLeaf_kp20, annotateLeaf_mpk, ?_, ?_, ?_, ?_, ?_⟩
  · intro kvs q p hm hw hk hp
    rw [annotateLeaf_kpd, hm, hw, hk]
    have hsub : jsSub (JSNum.fin q) (JSNum.fin q) = JSNum.fin 0 := by
      simp [jsSub]
    rw [hsub]
    simp only [jsDiv]
    rw [if_neg (by norm_num), if_pos hp]
  · rw [hconc]
    show fieldNum (annotateLeaf exampleLeaf) "winRate" = JSNum.fin (1/5)
    rw [annotateLeaf_winRate,
      show winsDefault exampleLeaf = JSNum.fin 2 from rfl,
      show fieldNum exampleLeaf "matches" = JSNum.fin 10 from rfl]
    simp only [jsDiv]
    rw [if_pos (by norm_num : (10:ℚ) ≠ 0)]
    norm_num [JSNum.fin.injEq]
  · rw [hconc]
    show fieldNum (annotateLeaf exampleLeaf) "top5Rate" = JSNum.fin (2/5)
    rw [annotateLeaf_top5 _ (by rfl),
      show fieldNum exampleLeaf "top5" = JSNum.fin 4 from rfl,
      show fieldNum exampleLeaf "matches" = JSNum.fin 10 from rfl]
    simp only [jsDiv]
    rw [if_pos (by norm_num : (10:ℚ) ≠ 0)]
    norm_num [JSNum.fin.injEq]
  · rw [hconc]
    show fieldNum (annotateLeaf exampleLeaf) "killsPerDeath" = JSNum.fin 2
    rw [annotateLeaf_kpd,
      show killsDefault exampleLeaf = JSNum.fin 16 from rfl,
      show winsDefault exampleLeaf = JSNum.fin 2 from rfl,
      show fieldNum exampleLeaf "matches" = JSNum.fin 10 from rfl]
    rw [show jsSub (JSNum.fin 10) (JSNum.fin 2) = JSNum.fin 8 by
      simp [jsSub]; norm_num]
    simp only [jsDiv]
    rw [if_pos (by norm_num : (8:ℚ) ≠ 0)]
    norm_num [JSNum.fin.injEq]
  · rw [hconc]
    show fieldNum (annotateLeaf exampleLeaf) "killsPer20" = JSNum.fin 8
    rw [annotateLeaf_kp20,
      show killsDefault exampleLeaf = JSNum.fin 16 from rfl,
      show fieldNum exampleLeaf "minutes" = JSNum.fin 40 from rfl]
    rw [show jsMul (JSNum.fin 16) (JSNum.fin 20) = JSNum.fin 320 by
      simp [jsMul]; norm_num]
    simp only [jsDiv]
    rw [if_pos (by norm_num : (40:ℚ) ≠ 0)]
    norm_num [JSNum.fin.injEq]
  · rw [hconc]
    show fieldNum (annotateLeaf exampleLeaf) "minutesPerKill" = JSNum.fin (5/2)
    rw [annotateLeaf_mpk,
      show killsDefault exampleLeaf = JSNum.fin 16 from rfl,
      show fieldNum exampleLeaf "minutes" = JSNum.fin 40 from rfl]
    simp only [jsDiv]
    rw [if_pos (by norm_num : (16:ℚ) ≠ 0)]
    norm_num [JSNum.fin.injEq]

theorem addFortniteRateStats_leaf_rates_witness :
    addFortniteRateStats (.obj exampleLeaf) = .obj (annotateLeaf exampleLeaf) ∧
    fieldNum (annotateLeaf exampleLeaf) "top5Rate" =
      jsDiv (fieldNum exampleLeaf "top5") (fieldNum exampleLeaf "matches") ∧
    fieldNum (annotateLeaf [("matches", .num (.fin 3)),
        ("wins", .num (.fin 3)), ("kills", .num (.fin 7))]) "killsPerDeath" =
      .posinf := by
  refine ⟨?_, ?_, ?_⟩
  · exact addFortniteRateStats_leaf_rates.1 exampleLeaf (by rfl)
  · exact addFortniteRateStats_leaf_rates.2.2.2.1 exampleLeaf (by rfl)
  · exact addFortniteRateStats_leaf_rates.2.2.2.2.2.2.2.2.2.1
      [("matches", .num (.fin 3)), ("wins", .num (.fin 3)),
       ("kills", .num (.fin 7))] 3 7 (by rfl) (by rfl) (by rfl) (by norm_num)

/-! ### Claim C9: `addFortniteRateStats` never mutates its argument -/

theorem get?_set_self' {α : Type} :
    ∀ (l : List α) (i : Nat) (x : α), i < l.length →
      (l.set i x).get? i = some x := by
  intro l
  induction l with
  | nil => intro i x h; simp at h
  | cons a rest ih =>
    intro i x h
    cases i with
    | zero => rfl
    | succ j =>
      simp only [List.set]
      simp only [List.length_cons, Nat.succ_lt_succ_iff] at h
      exact ih j x h

theorem get?_set_ne' {α : Type} :
    ∀ (l : List α) (i : Nat) (x : α) (j : Nat), j ≠ i →
      (l.set i x).get? j = l.get? j := by
  intro l
  induction l with
  | nil => intro i x j _; rfl
  | cons a rest ih =>
    intro i x j hne
    cases i with
    | zero =>
      cases j with
      | zero => exact absurd rfl hne
      | succ j0 => rfl
    | succ i0 =>
      cases j with
      | zero => rfl
      | succ j0 =>
        simp only [List.set, List.get?]
        exact ih i0 x j0 (fun hc => hne (by rw [hc]))

theorem readCell_lt_length {h : JSHeap} {a : Addr} {fs : JSFields}
    (hr : readCell h a = some fs) : a < h.cells.length := by
  unfold readCell at hr
  by_cases hlt : a < h.cells.length
  · exact hlt
  · have hnone : h.cells.get? a = none :=
      List.get?_eq_none.2 (Nat.le_of_not_lt hlt)
    rw [hnone] at hr
    cases hr

theorem readCell_write_self {h : JSHeap} {a : Addr} (fs : JSFields)
    (ha : a < h.cells.length) :
    readCell (writeCell h a fs) a = some fs := by
  unfold readCell writeCell
  exact get?_set_self' _ _ _ ha

theorem readCell_write_ne {h : JSHeap} {a : Addr} (fs : JSFields) {b : Addr}
    (hb : b ≠ a) : readCell (writeCell h a fs) b = readCell h b := by
  unfold readCell writeCell
  exact get?_set_ne' _ _ _ _ hb

theorem readCell_append_lt {h : JSHeap} {extra : List JSFields} {b : Addr}
    (hb : b < h.cells.length) :
    readCell ⟨h.cells ++ extra⟩ b = readCell h b := by
  unfold readCell
  exact List.get?_append hb

/-- A heap value referring only to addresses ≥ `n`. -/
def valAbove (n : Nat) : JSVal → Prop
  | .num _ => True
  | .ref a => n ≤ a

/-- Fields whose values all live above `n`. -/
def fieldsAbove (n : Nat) (fs : JSFields) : Prop :=
  ∀ kv ∈ fs, valAbove n kv.2

/-- Every cell at an address ≥ `n` only refers above `n`: the fresh copy is
closed away from the caller's original objects. -/
def heapClosedAbove (n : Nat) (h : JSHeap) : Prop :=
  ∀ a, n ≤ a → ∀ fs, readCell h a = some fs → fieldsAbove n fs

theorem valAbove_num (n : Nat) (x : JSNum) : valAbove n (.num x) := trivial

theorem fieldsAbove_jsSetV {n : Nat} {fs : JSFields} {k : String} {v : JSVal}
    (hf : fieldsAbove n fs) (hv : valAbove n v) :
    fieldsAbove n (jsSetV fs k v) := by
  unfold jsSetV
  by_cases hany : (fs.any fun kv => kv.1 == k) = true
  · rw [if_pos hany]
    intro kv hkv
    rcases List.mem_map.1 hkv with ⟨kv0, hkv0, heq⟩
    by_cases h0 : (kv0.1 == k) = true
    · rw [if_pos h0] at heq
      rw [← heq]
      exact hv
    · simp only [h0, Bool.false_eq_true, if_false] at heq
      rw [← heq]
      exact hf kv0 hkv0
  · rw [if_neg hany]
    intro kv hkv
    rcases List.mem_append.1 hkv with hmem | hmem
    · exact hf kv hmem
    · rcases List.mem_singleton.1 hmem with rfl
      exact hv

theorem fieldsAbove_addTopRateV {n : Nat} {fs : JSFields} (t r : String)
    (hf : fieldsAbove n fs) : fieldsAbove n (addTopRateV fs t r) := by
  unfold addTopRateV
  split
  · exact fieldsAbove_jsSetV hf (valAbove_num _ _)
  · exact hf

theorem fieldsAbove_annotateLeafV {n : Nat} {fs : JSFields}
    (hf : fieldsAbove n fs) : fieldsAbove n (annotateLeafV fs) := by
  unfold annotateLeafV
  simp only []
  apply fieldsAbove_jsSetV _ (valAbove_num _ _)
  apply fieldsAbove_jsSetV _ (valAbove_num _ _)
  apply fieldsAbove_jsSetV _ (valAbove_num _ _)
  apply fieldsAbove_addTopRateV
  apply fieldsAbove_addTopRateV
  apply fieldsAbove_addTopRateV
  apply fieldsAbove_addTopRateV
  apply fieldsAbove_addTopRateV
  apply fieldsAbove_addTopRateV
  apply fieldsAbove_jsSetV _ (valAbove_num _ _)
  by_cases hw : hasFieldV fs "wins" = true
  · rw [if_pos hw]
    by_cases hk : hasFieldV fs "kills" = true
    · rw [if_pos hk]
      exact hf
    · rw [if_neg hk]
      exact fieldsAbove_jsSetV hf (valAbove_num _ _)
  · rw [if_neg hw]
    have hf1 : fieldsAbove n (jsSetV fs "wins" (.num (.fin 0))) :=
      fieldsAbove_jsSetV hf (valAbove_num _ _)
    by_cases hk : hasFieldV (jsSetV fs "wins" (.num (.fin 0))) "kills" = true
    · rw [if_pos hk]
      exact hf1
    · rw [if_neg hk]
      exact fieldsAbove_jsSetV hf1 (valAbove_num _ _)

theorem heapClosedAbove_write {n : Nat} {h : JSHeap} {a : Addr}
    {fs : JSFields} (hc : heapClosedAbove n h) (hf : fieldsAbove n fs) :
    heapClosedAbove n (writeCell h a fs) := by
  intro c hcge fs' hread
  by_cases hca : c = a
  · subst hca
    by_cases hlen : c < h.cells.length
    · rw [readCell_write_self fs hlen] at hread
      cases hread
      exact hf
    · have : readCell (writeCell h c fs) c = none := by
        unfold readCell writeCell
        apply List.get?_eq_none.2
        rw [List.length_set]
        omega
      rw [this] at hread
      cases hread
  · rw [readCell_write_ne fs hca] at hread
    exact hc c hcge fs' hread

theorem recurseSummaryM_num (fuel : Nat) (h : JSHeap) (v : JSNum) :
    recurseSummaryM fuel h (.num v) = (h, .num v) := by
  cases fuel <;> rfl

theorem recurseSummaryM_ref_none (fuel : Nat) (h : JSHeap) (a : Addr)
    (hr : readCell h a = none) :
    recurseSummaryM (fuel + 1) h (.ref a) = (h, .ref a) := by
  simp only [recurseSummaryM, hr]

theorem recurseSummaryM_ref_leaf (fuel : Nat) (h : JSHeap) (a : Addr)
    (fs : JSFields) (hr : readCell h a = some fs)
    (hm : hasFieldV fs "matches" = true) :
    recurseSummaryM (fuel + 1) h (.ref a) =
      (writeCell h a (annotateLeafV fs), .ref a) := by
  simp only [recurseSummaryM, hr, hm, if_true]

theorem recurseSummaryM_ref_node (fuel : Nat) (h : JSHeap) (a : Addr)
    (fs : JSFields) (hr : readCell h a = some fs)
    (hm : hasFieldV fs "matches" = false) :
    recurseSummaryM (fuel + 1) h (.ref a) =
      (recurseKeysM fuel h a (fs.map Prod.fst), .ref a) := by
  simp only [recurseSummaryM, hr, hm, Bool.false_eq_true, if_false]

theorem recurseKeysM_cons_none (fuel : Nat) (h : JSHeap) (a : Addr)
    (k : String) (rest : List String) (hr : readCell h a = none) :
    recurseKeysM (fuel + 1) h a (k :: rest) = h := by
  simp only [recurseKeysM, hr]

theorem recurseKeysM_cons_some (fuel : Nat) (h : JSHeap) (a : Addr)
    (k : String) (rest : List String) (fs : JSFields)
    (hr : readCell h a = some fs) :
    recurseKeysM (fuel + 1) h a (k :: rest) =
      recurseKeysM fuel
        (match readCell
            (recurseSummaryM fuel h ((fs.lookup k).getD (.num .nan))).1 a with
         | some fs1 =>
            writeCell
              (recurseSummaryM fuel h ((fs.lookup k).getD (.num .nan))).1 a
              (jsSetV fs1 k
                (recurseSummaryM fuel h ((fs.lookup k).getD (.num .nan))).2)
         | none =>
            (recurseSummaryM fuel h ((fs.lookup k).getD (.num .nan))).1)
        a rest := by
  simp only [recurseKeysM, hr]

/-- The in-place annotation walk only writes to addresses ≥ `n` when started
from a value above `n` on a heap closed above `n`: reads below `n` are
untouched, closure is maintained, and the returned value stays above `n`. -/
theorem recurseM_frame : ∀ fuel : Nat,
    (∀ (h : JSHeap) (v : JSVal) (n : Nat),
      heapClosedAbove n h → valAbove n v →
      (∀ b, b < n →
        readCell (recurseSummaryM fuel h v).1 b = readCell h b) ∧
      heapClosedAbove n (recurseSummaryM fuel h v).1 ∧
      valAbove n (recurseSummaryM fuel h v).2) ∧
    (∀ (ks : List String) (h : JSHeap) (a : Addr) (n : Nat),
      heapClosedAbove n h → n ≤ a →
      (∀ b, b < n →
        readCell (recurseKeysM fuel h a ks) b = readCell h b) ∧
      heapClosedAbove n (recurseKeysM fuel h a ks)) := by
  intro fuel
  induction fuel with
  | zero =>
    constructor
    · intro h v n hc hv
      cases v with
      | num v0 => exact ⟨fun b _ => rfl, hc, trivial⟩
      | ref a => exact ⟨fun b _ => rfl, hc, hv⟩
    · intro ks h a n hc hna
      cases ks with
      | nil => exact ⟨fun b _ => rfl, hc⟩
      | cons k rest => exact ⟨fun b _ => rfl, hc⟩
  | succ fuel ih =>
    constructor
    · intro h v n hc hv
      cases v with
      | num v0 =>
        rw [recurseSummaryM_num]
        exact ⟨fun b _ => rfl, hc, trivial⟩
      | ref a =>
        have hna : n ≤ a := hv
        cases hr : readCell h a with
        | none =>
          rw [recurseSummaryM_ref_none fuel h a hr]
          exact ⟨fun b _ => rfl, hc, hv⟩
        | some fs =>
          have hfsAbove : fieldsAbove n fs := hc a hna fs hr
          by_cases hm : hasFieldV fs "matches" = true
          · rw [recurseSummaryM_ref_leaf fuel h a fs hr hm]
            refine ⟨?_, ?_, hv⟩
            · intro b hb
              have hne : b ≠ a := by omega
              exact readCell_write_ne _ hne
            · exact heapClosedAbove_write hc (fieldsAbove_annotateLeafV hfsAbove)
          · rw [recurseSummaryM_ref_node fuel h a fs hr
              (Bool.not_eq_true _ ▸ hm)]
            have hkeys := ih.2 (fs.map Prod.fst) h a n hc hna
            exact ⟨hkeys.1, hkeys.2, hv⟩
    · intro ks h a n hc hna
      cases ks with
      | nil => exact ⟨fun b _ => rfl, hc⟩
      | cons k rest =>
        cases hr : readCell h a with
        | none =>
          rw [recurseKeysM_cons_none fuel h a k rest hr]
          exact ⟨fun b _ => rfl, hc⟩
        | some fs =>
          rw [recurseKeysM_cons_some fuel h a k rest fs hr]
          have hfsAbove : fieldsAbove n fs := hc a hna fs hr
          have hvAbove : valAbove n ((fs.lookup k).getD (.num .nan)) := by
            cases hlk : fs.lookup k with
            | none => exact trivial
            | some v0 => exact hfsAbove (k, v0) (lookup_some_mem hlk)
          have hsum := ih.1 h ((fs.lookup k).getD (.num .nan)) n hc hvAbove
          cases hr1 : readCell
              (recurseSummaryM fuel h ((fs.lookup k).getD (.num .nan))).1 a with
          | none =>
            have hrest := ih.2 rest
              (recurseSummaryM fuel h ((fs.lookup k).getD (.num .nan))).1
              a n hsum.2.1 hna
            refine ⟨?_, ?_⟩
            · intro b hb
              rw [hrest.1 b hb, hsum.1 b hb]
            · exact hrest.2
          | some fs1 =>
            have hfs1Above : fieldsAbove n fs1 := hsum.2.1 a hna fs1 hr1
            have hw2 : heapClosedAbove n
                (writeCell
                  (recurseSummaryM fuel h ((fs.lookup k).getD (.num .nan))).1 a
                  (jsSetV fs1 k
                    (recurseSummaryM fuel h
                      ((fs.lookup k).getD (.num .nan))).2)) :=
              heapClosedAbove_write hsum.2.1
                (fieldsAbove_jsSetV hfs1Above hsum.2.2)
            have hrest := ih.2 rest _ a n hw2 hna
            refine ⟨?_, ?_⟩
            · intro b hb
              have hne : b ≠ a := by omega
              rw [hrest.1 b hb, readCell_write_ne _ hne, hsum.1 b hb]
            · exact hrest.2

/-- A successful `readTree` is insensitive to heap changes at or beyond the
heap's (original) length: the stringify view of the argument is preserved. -/
theorem readTree_agree : ∀ fuel : Nat,
    (∀ (h h' : JSHeap) (v : JSVal) (t : JTree),
      (∀ b, b < h.cells.length → readCell h' b = readCell h b) →
      readTree fuel h v = some t → readTree fuel h' v = some t) ∧
    (∀ (h h' : JSHeap) (fs : JSFields) (ts : List (String × JTree)),
      (∀ b, b < h.cells.length → readCell h' b = readCell h b) →
      readFields fuel h fs = some ts → readFields fuel h' fs = some ts) := by
  intro fuel
  induction fuel with
  | zero =>
    constructor
    · intro h h' v t hag hread
      cases v with
      | num v0 => exact hread
      | ref a => cases hread
    · intro h h' fs ts hag hread
      cases fs with
      | nil => exact hread
      | cons kv rest => cases hread
  | succ fuel ih =>
    constructor
    · intro h h' v t hag hread
      cases v with
      | num v0 => exact hread
      | ref a =>
        rw [show readTree (fuel + 1) h (.ref a) =
          (readCell h a).bind
            (fun fs => (readFields fuel h fs).map .obj) from rfl] at hread
        rw [show readTree (fuel + 1) h' (.ref a) =
          (readCell h' a).bind
            (fun fs => (readFields fuel h' fs).map .obj) from rfl]
        cases hr : readCell h a with
        | none => rw [hr] at hread; cases hread
        | some fs =>
          rw [hr] at hread
          have hread2 : (readFields fuel h fs).map JTree.obj = some t := hread
          rw [hag a (readCell_lt_length hr), hr]
          show (readFields fuel h' fs).map JTree.obj = some t
          cases hfields : readFields fuel h fs with
          | none => rw [hfields] at hread2; cases hread2
          | some ts =>
            rw [hfields] at hread2
            rw [ih.2 h h' fs ts hag hfields]
            exact hread2
    · intro h h' fs ts hag hread
      cases fs with
      | nil => exact hread
      | cons kv rest =>
        rcases kv with ⟨k, v⟩
        rw [show readFields (fuel + 1) h ((k, v) :: rest) =
          (readTree fuel h v).bind (fun t =>
            (readFields fuel h rest).map (fun ts => (k, t) :: ts)) from rfl]
          at hread
        rw [show readFields (fuel + 1) h' ((k, v) :: rest) =
          (readTree fuel h' v).bind (fun t =>
            (readFields fuel h' rest).map (fun ts => (k, t) :: ts)) from rfl]
        cases hv : readTree fuel h v with
        | none => rw [hv] at hread; cases hread
        | some t0 =>
          rw [hv] at hread
          have hread2 : (readFields fuel h rest).map
              (fun ts2 => (k, t0) :: ts2) = some ts := hread
          rw [ih.1 h h' v t0 hag hv]
          show (readFields fuel h' rest).map
            (fun ts2 => (k, t0) :: ts2) = some ts
          cases hrest : readFields fuel h rest with
          | none => rw [hrest] at hread2; cases hread2
          | some ts0 =>
            rw [hrest] at hread2
            rw [ih.2 h h' rest ts0 hag hrest]
            exact hread2

mutual

/-- `copyTree` only appends fresh cells: old reads are unchanged, the produced
value refers above `n`, and closure above `n` is preserved. -/
theorem copyTree_spec (t : JTree) :
    ∀ (h : JSHeap) (n : Nat), n ≤ h.cells.length → heapClosedAbove n h →
      h.cells.length ≤ (copyTree h t).1.cells.length ∧
      (∀ b, b < h.cells.length →
        readCell (copyTree h t).1 b = readCell h b) ∧
      valAbove n (copyTree h t).2 ∧
      heapClosedAbove n (copyTree h t).1 := by
  intro h n hn hc
  cases t with
  | num v =>
    refine ⟨le_rfl, fun b _ => rfl, ?_, hc⟩
    show valAbove n (JSVal.num v)
    exact trivial
  | obj kvs =>
    have hf := copyFields_spec kvs h n hn hc
    simp only [copyTree, allocCell]
    refine ⟨?_, ?_, ?_, ?_⟩
    · calc h.cells.length ≤ (copyFields h kvs).1.cells.length := hf.1
        _ ≤ ((copyFields h kvs).1.cells ++ [(copyFields h kvs).2]).length := by
            rw [List.length_append]; omega
    · intro b hb
      have hb1 : b < (copyFields h kvs).1.cells.length := by
        have := hf.1; omega
      show readCell ⟨(copyFields h kvs).1.cells ++ [(copyFields h kvs).2]⟩ b =
        readCell h b
      rw [readCell_append_lt hb1]
      exact hf.2.1 b hb
    · show n ≤ (copyFields h kvs).1.cells.length
      calc n ≤ h.cells.length := hn
        _ ≤ _ := hf.1
    · intro c hcge fs' hread
      by_cases hclt : c < (copyFields h kvs).1.cells.length
      · rw [show readCell
            ⟨(copyFields h kvs).1.cells ++ [(copyFields h kvs).2]⟩ c =
            readCell (copyFields h kvs).1 c from readCell_append_lt hclt]
          at hread
        exact hf.2.2.2 c hcge fs' hread
      · by_cases hceq : c = (copyFields h kvs).1.cells.length
        · subst hceq
          rw [show readCell
              ⟨(copyFields h kvs).1.cells ++ [(copyFields h kvs).2]⟩
                (copyFields h kvs).1.cells.length =
              some (copyFields h kvs).2 by
            unfold readCell
            exact List.get?_concat_length _ _] at hread
          cases hread
          exact hf.2.2.1
        · have : readCell
              ⟨(copyFields h kvs).1.cells ++ [(copyFields h kvs).2]⟩ c =
              none := by
            unfold readCell
            apply List.get?_eq_none.2
            rw [List.length_append]
            simp only [List.length_singleton]
            omega
          rw [this] at hread
          cases hread

/-- As `copyTree_spec`, for a field list. -/
theorem copyFields_spec (kvs : List (String × JTree)) :
    ∀ (h : JSHeap) (n : Nat), n ≤ h.cells.length → heapClosedAbove n h →
      h.cells.length ≤ (copyFields h kvs).1.cells.length ∧
      (∀ b, b < h.cells.length →
        readCell (copyFields h kvs).1 b = readCell h b) ∧
      fieldsAbove n (copyFields h kvs).2 ∧
      heapClosedAbove n (copyFields h kvs).1 := by
  intro h n hn hc
  cases kvs with
  | nil =>
    refine ⟨le_rfl, fun b _ => rfl, ?_, hc⟩
    intro kv hkv
    exact absurd hkv (List.not_mem_nil kv)
  | cons kv rest =>
    rcases kv with ⟨k, t⟩
    have ht := copyTree_spec t h n hn hc
    have hrest := copyFields_spec rest (copyTree h t).1 n
      (le_trans hn ht.1) ht.2.2.2
    simp only [copyFields]
    refine ⟨le_trans ht.1 hrest.1, ?_, ?_, hrest.2.2.2⟩
    · intro b hb
      rw [hrest.2.1 b (by have := ht.1; omega), ht.2.1 b hb]
    · intro kv hkv
      rcases List.mem_cons.1 hkv with rfl | hmem
      · exact ht.2.2.1
      · exact hrest.2.2.1 kv hmem

end

/-- C9: running `addFortniteRateStats` (JSON deep copy, then in-place
annotation of the copy) leaves the caller's tree untouched: whatever tree the
argument denoted before the call, it denotes the same tree afterwards; rate
fields land only in the freshly copied object graph that is returned. -/
theorem addFortniteRateStats_no_mutation (fuel : Nat) (h : JSHeap)
    (root : JSVal) (t : JTree) (hread : readTree fuel h root = some t) :
    readTree fuel (addFortniteRateStatsM fuel h root).1 root = some t := by
  unfold addFortniteRateStatsM
  rw [hread]
  simp only []
  have hclosed : heapClosedAbove h.cells.length h := by
    intro a ha fs hfs
    have hcontra : ¬a < h.cells.length := by omega
    exact absurd (readCell_lt_length hfs) hcontra
  have hcopy := copyTree_spec t h h.cells.length le_rfl hclosed
  have hsum := (recurseM_frame fuel).1 (copyTree h t).1 (copyTree h t).2
    h.cells.length hcopy.2.2.2 hcopy.2.2.1
  have hagree : ∀ b, b < h.cells.length →
      readCell (recurseSummaryM fuel (copyTree h t).1 (copyTree h t).2).1 b =
        readCell h b := by
    intro b hb
    rw [hsum.1 b hb, hcopy.2.1 b hb]
  exact (readTree_agree fuel).1 h _ root t hagree hread

/-- A one-cell heap whose single object is a leaf `{matches: 2}`. -/
def exampleHeap : JSHeap :=
  ⟨[[("matches", JSVal.num (.fin 2))]]⟩

theorem addFortniteRateStats_no_mutation_witness :
    readTree 2 (addFortniteRateStatsM 2 exampleHeap (.ref 0)).1 (.ref 0) =
      some (.obj [("matches", .num (.fin 2))]) := by
  apply addFortniteRateStats_no_mutation 2 exampleHeap (.ref 0)
    (.obj [("matches", .num (.fin 2))])
  simp [readTree, readFields, readCell, exampleHeap]

end FnStats
